import Mathlib

/-!
ARM `mmu_context.h`: ASID validation and `switch_mm`

A shallow embedding of `arch/arm/include/asm/mmu_context.h`.

* `struct mm_struct *` values are abstract identifiers (`MmId`); `init_mm` is one of them.
* `unsigned int` / `unsigned long` values are naturals, reduced modulo `2 ^ 32` wherever
  the C arithmetic can overflow.
* `mm_cpumask(mm)` is a finite set of CPU numbers.
* Every function returns the new state together with the list of calls it made, in
  program order (`Event`): the calls that leave the header and the calls that write a
  CPU mask.
* The preprocessor configuration is a record of booleans (`Config`); what the header
  only reads from its surroundings (`cache_is_vivt()`, `mm->pgd`, page-table memory,
  `phys_to_virt`, the value returned by `tima_debug_page_protection`) is a record of
  read-only inputs (`Env`).
-/

namespace MmuContext

/-- A `struct mm_struct *`. -/
abbrev MmId := Nat

/-- A CPU number, as returned by `smp_processor_id()`. -/
abbrev Cpu := Nat

/-- Number of values of a 32-bit `unsigned int` / `unsigned long`. -/
def WORD : Nat := 2 ^ 32

/-- The macro `ASID_BITS`, defined as `8`. -/
def ASID_BITS : Nat := 8

/-- The macro `ASID_MASK`, defined as `((~0) << ASID_BITS)`, as a 32-bit pattern. -/
def ASID_MASK : Nat := ((WORD - 1) <<< ASID_BITS) % WORD

/-- The macro `ASID_FIRST_VERSION`, defined as `(1 << ASID_BITS)`. -/
def ASID_FIRST_VERSION : Nat := 1 <<< ASID_BITS

/-- The kernel's own address space, `init_mm`. -/
def init_mm : MmId := 0

/-- The preprocessor symbols the header tests. -/
structure Config where
  CPU_HAS_ASID : Bool
  MMU : Bool
  SMP : Bool
  TIMA_RKP_DEBUG : Bool
  TIMA_RKP_L1_TABLES : Bool
  TIMA_RKP_L2_TABLES : Bool

/-- The fields of `mm->context` the header uses. -/
structure mm_context where
  id : Nat
  kvm_seq : Nat

/-- Read-only surroundings of the header. -/
structure Env where
  /-- Value of `cache_is_vivt()`. -/
  cache_is_vivt : Bool
  /-- Value of `(unsigned long)mm->pgd`. -/
  pgd : MmId → Nat
  /-- Value of `*(unsigned long *)addr`. -/
  mem : Nat → Nat
  /-- Value of `(unsigned long)phys_to_virt(pa)`. -/
  phys_to_virt : Nat → Nat
  /-- Value returned by the external `tima_debug_page_protection(va, a, b)`. -/
  tima_debug_page_protection : Nat → Nat → Nat → Int

/-- The mutable state the header reads and writes. -/
structure State where
  /-- The global `extern unsigned int cpu_last_asid`. -/
  cpu_last_asid : Nat
  /-- The field `mm->context` of each address space. -/
  context : MmId → mm_context
  /-- The CPU mask `mm_cpumask(mm)` of each address space. -/
  cpumask : MmId → Finset Cpu
  /-- The per-CPU variable `per_cpu(current_mm, cpu)`. -/
  current_mm : Cpu → MmId
  /-- The global `extern unsigned long tima_debug_infra_cnt`. -/
  tima_debug_infra_cnt : Nat
  /-- Page-table root and context id last loaded into each CPU by `cpu_switch_mm`. -/
  hw_loaded : Cpu → Nat × Nat

/-- Calls made by the header, in program order. -/
inductive Event where
  | flush_icache_all (cpu : Cpu)
  | cpumask_test_and_set_cpu (cpu : Cpu) (mm : MmId)
  | check_context (mm : MmId)
  | new_context (mm : MmId)
  | check_kvm_seq (mm : MmId)
  | cpu_switch_mm (pgd : Nat) (mm : MmId)
  | tima_debug_page_protection (va a b : Nat)
  | tima_debug_signal_failure (code arg : Nat)
  | cpumask_clear_cpu (cpu : Cpu) (mm : MmId)
  | tlb_invalidate_all
  | cache_flush_all
  deriving DecidableEq

/-- The assignment `mm->context.id = v`. -/
def State.set_context_id (s : State) (mm : MmId) (v : Nat) : State :=
  { s with context := Function.update s.context mm { s.context mm with id := v } }

/-- The assignment `mm->context.kvm_seq = v`. -/
def State.set_kvm_seq (s : State) (mm : MmId) (v : Nat) : State :=
  { s with context := Function.update s.context mm { s.context mm with kvm_seq := v } }

/-- Modelled from the spec: `__new_context` (defined in `arch/arm/mm/context.c`, not part
of the header). Section 4.1: the shared counter is incremented; the post-increment value
becomes `mm->context.id` (its low 8 bits are the ASID). When the low 8 bits wrap to 0 a
full TLB invalidation is issued, and on a VIVT cache a full cache flush as well. -/
def __new_context (env : Env) (mm : MmId) (s : State) : State × List Event :=
  let asid := (s.cpu_last_asid + 1) % WORD
  let s1 := { s with cpu_last_asid := asid }
  let s2 := s1.set_context_id mm asid
  let rollover : List Event :=
    if asid % 2 ^ ASID_BITS = 0 then
      Event.tlb_invalidate_all :: (if env.cache_is_vivt then [Event.cache_flush_all] else [])
    else []
  (s2, Event.new_context mm :: rollover)

/-- Modelled from the spec: `__check_kvm_seq` (declared in the header, defined
elsewhere). Section 4.2: a full remap synchronization, after which the stamp of `mm` is
the current value of the dynamic-mapping generation `init_mm.context.kvm_seq`. -/
def __check_kvm_seq (mm : MmId) (s : State) : State × List Event :=
  (s.set_kvm_seq mm (s.context init_mm).kvm_seq, [Event.check_kvm_seq mm])

/-- Modelled from the spec: `cpu_switch_mm` (a per-processor assembly routine). Section 6:
loads a page-table root into the hardware of the running CPU, tagged with the context id
of `mm`. -/
def cpu_switch_mm (cpu : Cpu) (pgd : Nat) (mm : MmId) (s : State) : State × List Event :=
  ({ s with hw_loaded := Function.update s.hw_loaded cpu (pgd, (s.context mm).id) },
   [Event.cpu_switch_mm pgd mm])

/-- The generation test of `check_context`:
`(mm->context.id ^ cpu_last_asid) >> ASID_BITS` is non-zero. -/
def asid_stale (id last : Nat) : Bool :=
  ((id ^^^ last) >>> ASID_BITS) != 0

/-- The second test of `check_context`, shared by both variants:
`if (mm->context.kvm_seq != init_mm.context.kvm_seq) __check_kvm_seq(mm);` -/
def check_kvm (mm : MmId) (s : State) : State × List Event :=
  if (s.context mm).kvm_seq ≠ (s.context init_mm).kvm_seq then __check_kvm_seq mm s
  else (s, [])

/-- The `CONFIG_CPU_HAS_ASID` variant of `check_context` (lines 57-72). -/
def check_context_asid (env : Env) (mm : MmId) (s : State) : State × List Event :=
  let r1 : State × List Event :=
    if asid_stale (s.context mm).id s.cpu_last_asid then __new_context env mm s else (s, [])
  let r2 := check_kvm mm r1.1
  (r2.1, Event.check_context mm :: (r1.2 ++ r2.2))

/-- The variant of `check_context` without `CONFIG_CPU_HAS_ASID` (lines 78-84). -/
def check_context_noasid (cfg : Config) (mm : MmId) (s : State) : State × List Event :=
  let r : State × List Event := if cfg.MMU then check_kvm mm s else (s, [])
  (r.1, Event.check_context mm :: r.2)

/-- The call `check_context(mm)`, as selected by `CONFIG_CPU_HAS_ASID`. -/
def check_context (cfg : Config) (env : Env) (mm : MmId) (s : State) : State × List Event :=
  if cfg.CPU_HAS_ASID then check_context_asid env mm s else check_context_noasid cfg mm s

/-- The test `cpumask_empty(mm_cpumask(mm))`. -/
def cpumask_empty (s : State) (mm : MmId) : Bool := decide (s.cpumask mm = ∅)

/-- The test `cpumask_test_cpu(cpu, mm_cpumask(mm))`. -/
def cpumask_test_cpu (cpu : Cpu) (s : State) (mm : MmId) : Bool := decide (cpu ∈ s.cpumask mm)

/-- The call `cpumask_test_and_set_cpu(cpu, mm_cpumask(mm))`: the old bit and the new state. -/
def cpumask_test_and_set_cpu (cpu : Cpu) (mm : MmId) (s : State) : Bool × State :=
  (decide (cpu ∈ s.cpumask mm),
   { s with cpumask := Function.update s.cpumask mm (insert cpu (s.cpumask mm)) })

/-- The call `cpumask_clear_cpu(cpu, mm_cpumask(mm))`. -/
def cpumask_clear_cpu (cpu : Cpu) (mm : MmId) (s : State) : State :=
  { s with cpumask := Function.update s.cpumask mm ((s.cpumask mm).erase cpu) }

/-- One iteration of the `CONFIG_TIMA_RKP_L1_TABLES` loop (lines 147-153). -/
def tima_l1_step (env : Env) (next : MmId) (i : Nat) : List Event :=
  let va := (env.pgd next + i * 0x1000) % WORD
  Event.tima_debug_page_protection va 1 1 ::
    (if env.tima_debug_page_protection va 1 1 = 0 then
      [Event.tima_debug_signal_failure 0x3f80f221 1]
    else [])

/-- One iteration of the `CONFIG_TIMA_RKP_L2_TABLES` loop (lines 156-169). -/
def tima_l2_step (env : Env) (next : MmId) (acc : State × List Event) (i : Nat) :
    State × List Event :=
  let pmd := env.mem ((env.pgd next + i * 4) % WORD)
  if pmd &&& 0x3 ≠ 0x1 then acc
  else if 0x07e00000 ≤ pmd ∧ pmd ≤ 0x07f00000 then acc
  else
    let va := env.phys_to_virt (pmd &&& 0xfffffc00)
    let ret := env.tima_debug_page_protection va 0x101 1
    let call := Event.tima_debug_page_protection va 0x101 1
    if ret = 0 then
      (acc.1, acc.2 ++ [call, Event.tima_debug_signal_failure 0x3f80f221 101])
    else if ret = 1 then
      ({ acc.1 with tima_debug_infra_cnt := (acc.1.tima_debug_infra_cnt + 1) % WORD },
       acc.2 ++ [call])
    else (acc.1, acc.2 ++ [call])

/-- The `CONFIG_TIMA_RKP_DEBUG` block of `switch_mm` (lines 139-171). -/
def tima_debug (cfg : Config) (env : Env) (next : MmId) (s : State) : State × List Event :=
  if cfg.TIMA_RKP_DEBUG then
    let l1 : List Event :=
      if cfg.TIMA_RKP_L1_TABLES then (List.range 4).flatMap (tima_l1_step env next) else []
    let r2 : State × List Event :=
      if cfg.TIMA_RKP_L2_TABLES then (List.range 0x1000).foldl (tima_l2_step env next) (s, [])
      else (s, [])
    (r2.1, l1 ++ r2.2)
  else (s, [])

/-- The thread-migration check of `switch_mm` under `CONFIG_SMP` (lines 126-131):
`__flush_icache_all()` when the mask of `next` is not empty and does not hold `cpu`. -/
def migration_flush (cfg : Config) (cpu : Cpu) (next : MmId) (s : State) : List Event :=
  if cfg.SMP && (!cpumask_empty s next && !cpumask_test_cpu cpu s next) then
    [Event.flush_icache_all cpu]
  else []

/-- The `CONFIG_SMP` assignment `*crt_mm = next` to `per_cpu(current_mm, cpu)`
(lines 133-136). -/
def set_current_mm (cfg : Config) (cpu : Cpu) (next : MmId) (s : State) : State :=
  if cfg.SMP then { s with current_mm := Function.update s.current_mm cpu next } else s

/-- The body of the `if` of `switch_mm` (lines 133-173), run on the state left by
`cpumask_test_and_set_cpu`. -/
def switch_mm_body (cfg : Config) (env : Env) (cpu : Cpu) (prev next : MmId) (s : State) :
    State × List Event :=
  let s1 := set_current_mm cfg cpu next s
  let r2 := check_context cfg env next s1
  let r3 := cpu_switch_mm cpu (env.pgd next) next r2.1
  let r4 := tima_debug cfg env next r3.1
  let r5 : State × List Event :=
    if env.cache_is_vivt then
      (cpumask_clear_cpu cpu prev r4.1, [Event.cpumask_clear_cpu cpu prev])
    else (r4.1, [])
  (r5.1, r2.2 ++ r3.2 ++ r4.2 ++ r5.2)

/-- The function `switch_mm(prev, next, tsk)` run on CPU `cpu` (lines 112-176); `tsk` is
not used by the body. -/
def switch_mm (cfg : Config) (env : Env) (cpu : Cpu) (prev next : MmId) (s : State) :
    State × List Event :=
  if cfg.MMU then
    let flush := migration_flush cfg cpu next s
    let ts := cpumask_test_and_set_cpu cpu next s
    if !ts.1 || decide (prev ≠ next) then
      let r := switch_mm_body cfg env cpu prev next ts.2
      (r.1, flush ++ Event.cpumask_test_and_set_cpu cpu next :: r.2)
    else (ts.2, flush ++ [Event.cpumask_test_and_set_cpu cpu next])
  else (s, [])

/-- The macro `init_new_context(tsk, mm)`: with `CONFIG_CPU_HAS_ASID` the comma expression
`(__init_new_context(tsk,mm),0)`, otherwise the constant `0`. The function
`__init_new_context` is defined elsewhere and is taken as a parameter. The result is the
value of the expression and the state it leaves. -/
def init_new_context (cfg : Config) (__init_new_context : Nat → MmId → State → State)
    (tsk : Nat) (mm : MmId) (s : State) : Int × State :=
  if cfg.CPU_HAS_ASID then (0, __init_new_context tsk mm s) else (0, s)

/-- The state in which `switch_mm`, on its slow path, calls `cpu_switch_mm` (line 138): the
one left by `check_context(next)` on line 137. -/
def switch_mm_load_state (cfg : Config) (env : Env) (cpu : Cpu) (next : MmId) (s : State) :
    State :=
  (check_context cfg env next
    (set_current_mm cfg cpu next (cpumask_test_and_set_cpu cpu next s).2)).1

/-- One call of `switch_mm`: the surroundings it runs in, the CPU, `prev` and `next`. -/
structure Call where
  env : Env
  cpu : Cpu
  prev : MmId
  next : MmId

/-- The state after a sequence of `switch_mm` calls, each run to completion. -/
def switch_mm_calls (cfg : Config) (calls : List Call) (s : State) : State :=
  calls.foldl (fun st k => (switch_mm cfg k.env k.cpu k.prev k.next st).1) s

/-- Recognises a call of `__new_context`. -/
def Event.is_new_context : Event → Bool
  | .new_context _ => true
  | _ => false

/-- Recognises a call of `__check_kvm_seq`. -/
def Event.is_check_kvm_seq : Event → Bool
  | .check_kvm_seq _ => true
  | _ => false

/-- Recognises a call of `check_context`. -/
def Event.is_check_context : Event → Bool
  | .check_context _ => true
  | _ => false

/-- Recognises a call of `cpu_switch_mm`. -/
def Event.is_cpu_switch_mm : Event → Bool
  | .cpu_switch_mm _ _ => true
  | _ => false

/-- Recognises a call of `__flush_icache_all`. -/
def Event.is_flush_icache_all : Event → Bool
  | .flush_icache_all _ => true
  | _ => false

/-- Recognises a call of the debug hook `tima_debug_page_protection` or of
`tima_debug_signal_failure`. -/
def Event.is_tima_debug : Event → Bool
  | .tima_debug_page_protection _ _ _ => true
  | .tima_debug_signal_failure _ _ => true
  | _ => false

/-- Recognises the calls made inside `check_context`: `__new_context`, the invalidations
it issues on rollover, and `__check_kvm_seq`. -/
def Event.is_validation : Event → Bool
  | .new_context _ => true
  | .check_kvm_seq _ => true
  | .tlb_invalidate_all => true
  | .cache_flush_all => true
  | _ => false

/-- Recognises a call of `tima_debug_signal_failure`. -/
def Event.is_tima_debug_signal_failure : Event → Bool
  | .tima_debug_signal_failure _ _ => true
  | _ => false

/-- Recognises a call of `cpumask_clear_cpu`. -/
def Event.is_cpumask_clear_cpu : Event → Bool
  | .cpumask_clear_cpu _ _ => true
  | _ => false

/-- Example configuration: an SMP kernel on an ASID-capable processor, debug hook off. -/
def cfg_smp : Config :=
  { CPU_HAS_ASID := true, MMU := true, SMP := true,
    TIMA_RKP_DEBUG := false, TIMA_RKP_L1_TABLES := false, TIMA_RKP_L2_TABLES := false }

/-- Example configuration: a uniprocessor kernel on a processor without ASIDs. -/
def cfg_up : Config :=
  { CPU_HAS_ASID := false, MMU := true, SMP := false,
    TIMA_RKP_DEBUG := false, TIMA_RKP_L1_TABLES := false, TIMA_RKP_L2_TABLES := false }

/-- Example configuration: `cfg_smp` with the debug hook on for the first-level tables. -/
def cfg_debug : Config :=
  { cfg_smp with TIMA_RKP_DEBUG := true, TIMA_RKP_L1_TABLES := true }

/-- Example surroundings with a cache that is not VIVT. -/
def env_vipt : Env :=
  { cache_is_vivt := false, pgd := fun m => 0x4000 * m, mem := fun _ => 0,
    phys_to_virt := fun pa => pa, tima_debug_page_protection := fun _ _ _ => 1 }

/-- Example surroundings with a VIVT cache. -/
def env_vivt : Env := { env_vipt with cache_is_vivt := true }

/-- Example state right after boot: `cpu_last_asid = ASID_FIRST_VERSION`, every context id
and stamp 0, every CPU mask empty. -/
def boot_state : State :=
  { cpu_last_asid := ASID_FIRST_VERSION, context := fun _ => { id := 0, kvm_seq := 0 },
    cpumask := fun _ => ∅, current_mm := fun _ => init_mm, tima_debug_infra_cnt := 0,
    hw_loaded := fun _ => (0, 0) }

/-- The states reachable from boot by calls of `switch_mm`, each taken as one atomic step
on any CPU with any `prev` and `next`, as long as no step wraps the 32-bit counter
`cpu_last_asid`. At boot every `context.id` is 0 and `cpu_last_asid` is
`ASID_FIRST_VERSION`. -/
inductive Reachable (cfg : Config) : State → Prop where
  | boot (s : State) (hid : ∀ m, (s.context m).id = 0)
      (hlast : s.cpu_last_asid = ASID_FIRST_VERSION) : Reachable cfg s
  | step (env : Env) (c : Cpu) (prev next : MmId) (s : State) (h : Reachable cfg s)
      (hnowrap : s.cpu_last_asid ≤ (switch_mm cfg env c prev next s).1.cpu_last_asid) :
      Reachable cfg (switch_mm cfg env c prev next s).1

/-! Bit-level facts about the generation test. -/

theorem shiftRight_xor (a b k : Nat) : (a ^^^ b) >>> k = a >>> k ^^^ b >>> k := by
  apply Nat.eq_of_testBit_eq
  intro i
  simp only [Nat.testBit_shiftRight, Nat.testBit_xor]

theorem asid_stale_iff (a b : Nat) :
    asid_stale a b = true ↔ a >>> ASID_BITS ≠ b >>> ASID_BITS := by
  unfold asid_stale
  rw [bne_iff_ne, shiftRight_xor]
  exact not_congr Nat.xor_eq_zero

theorem asid_stale_self (a : Nat) : asid_stale a a = false := by
  cases h : asid_stale a a
  · rfl
  · exact absurd rfl ((asid_stale_iff a a).1 h)

theorem and_ASID_MASK (a : Nat) (h : a < WORD) :
    a &&& ASID_MASK = (a >>> ASID_BITS) <<< ASID_BITS := by
  have hm : ASID_MASK = (2 ^ 24 - 1) <<< 8 := by decide
  rw [hm]
  apply Nat.eq_of_testBit_eq
  intro i
  simp only [ASID_BITS, Nat.testBit_and, Nat.testBit_shiftLeft, Nat.testBit_shiftRight,
    Nat.testBit_two_pow_sub_one]
  have e : 8 ≤ i → 8 + (i - 8) = i := fun h8 => by omega
  by_cases h8 : 8 ≤ i
  · by_cases h32 : i < 32
    · have : i - 8 < 24 := by omega
      simp [h8, this, e h8]
    · have hf : a.testBit i = false := by
        apply Nat.testBit_lt_two_pow
        calc a < 2 ^ 32 := h
          _ ≤ 2 ^ i := Nat.pow_le_pow_right (by decide) (by omega)
      simp [hf, e h8]
  · simp [h8]

theorem and_ASID_MASK_eq_iff (a b : Nat) (ha : a < WORD) (hb : b < WORD) :
    a &&& ASID_MASK = b &&& ASID_MASK ↔ a >>> ASID_BITS = b >>> ASID_BITS := by
  rw [and_ASID_MASK a ha, and_ASID_MASK b hb, Nat.shiftLeft_eq, Nat.shiftLeft_eq]
  constructor
  · intro h
    exact Nat.eq_of_mul_eq_mul_right (by decide : 0 < 2 ^ ASID_BITS) h
  · intro h
    rw [h]

/-! The events of the two tests of `check_context`. -/

theorem new_context_events (env : Env) (mm : MmId) (s : State) (e : Event)
    (h : e ∈ (__new_context env mm s).2) :
    e = Event.new_context mm ∨ e = Event.tlb_invalidate_all ∨ e = Event.cache_flush_all := by
  unfold __new_context at h
  simp only [List.mem_cons] at h
  rcases h with h | h
  · exact Or.inl h
  · split at h
    · simp only [List.mem_cons] at h
      rcases h with h | h
      · exact Or.inr (Or.inl h)
      · split at h
        · simp only [List.mem_singleton] at h
          exact Or.inr (Or.inr h)
        · simp at h
    · simp at h

theorem check_kvm_events (mm : MmId) (s : State) :
    (check_kvm mm s).2 =
      if (s.context mm).kvm_seq ≠ (s.context init_mm).kvm_seq then [Event.check_kvm_seq mm]
      else [] := by
  unfold check_kvm __check_kvm_seq
  split <;> rfl

theorem new_context_kvm_seq (env : Env) (mm m : MmId) (s : State) :
    ((__new_context env mm s).1.context m).kvm_seq = (s.context m).kvm_seq := by
  unfold __new_context State.set_context_id
  by_cases h : m = mm
  · subst h
    simp
  · simp [Function.update_noteq h]

theorem check_context_asid_new_context_mem (env : Env) (mm m : MmId) (s : State) :
    Event.new_context m ∈ (check_context_asid env mm s).2 ↔
      m = mm ∧ asid_stale (s.context mm).id s.cpu_last_asid = true := by
  unfold check_context_asid
  simp only [check_kvm_events, List.mem_cons, List.mem_append]
  constructor
  · rintro (h | h | h)
    · cases h
    · split at h
      · rename_i hs
        rcases new_context_events env mm s _ h with h' | h' | h'
        · exact ⟨by injection h', hs⟩
        · cases h'
        · cases h'
      · simp at h
    · split at h <;> simp at h
  · rintro ⟨rfl, hs⟩
    right; left
    rw [if_pos hs]
    simp [__new_context]

/-- C2: generation check. For 32-bit values `id = mm->context.id` and
`last = cpu_last_asid`, the `CONFIG_CPU_HAS_ASID` variant of `check_context` calls
`__new_context(mm)` if and only if the generation bits differ, `id >> 8 ≠ last >> 8`,
which is the same as `id & ASID_MASK ≠ last & ASID_MASK`; so a difference confined to the
low 8 bits never allocates and a difference in the upper 24 bits always does. No other
address space is allocated for. -/
theorem check_context_allocates_iff (env : Env) (mm : MmId) (s : State)
    (hid : (s.context mm).id < WORD) (hlast : s.cpu_last_asid < WORD) :
    (Event.new_context mm ∈ (check_context_asid env mm s).2 ↔
        (s.context mm).id >>> ASID_BITS ≠ s.cpu_last_asid >>> ASID_BITS) ∧
    ((s.context mm).id >>> ASID_BITS ≠ s.cpu_last_asid >>> ASID_BITS ↔
        (s.context mm).id &&& ASID_MASK ≠ s.cpu_last_asid &&& ASID_MASK) ∧
    (∀ m, Event.new_context m ∈ (check_context_asid env mm s).2 → m = mm) := by
  refine ⟨?_, ?_, ?_⟩
  · rw [check_context_asid_new_context_mem, asid_stale_iff]
    simp
  · exact not_congr (and_ASID_MASK_eq_iff _ _ hid hlast).symm
  · intro m h
    exact ((check_context_asid_new_context_mem env mm m s).1 h).1

/-- Witness for C2: the boot state, where `context.id` is 0 and `cpu_last_asid` is 256. -/
theorem check_context_allocates_iff_witness :
    (Event.new_context 5 ∈ (check_context_asid env_vipt 5 boot_state).2 ↔
        (boot_state.context 5).id >>> ASID_BITS ≠ boot_state.cpu_last_asid >>> ASID_BITS) ∧
    ((boot_state.context 5).id >>> ASID_BITS ≠ boot_state.cpu_last_asid >>> ASID_BITS ↔
        (boot_state.context 5).id &&& ASID_MASK ≠ boot_state.cpu_last_asid &&& ASID_MASK) ∧
    (∀ m, Event.new_context m ∈ (check_context_asid env_vipt 5 boot_state).2 → m = 5) :=
  check_context_allocates_iff env_vipt 5 boot_state (by decide) (by decide)

/-- C6: a freshly created address space is always stale. Whenever `cpu_last_asid` is a
live generation (`cpu_last_asid >= ASID_FIRST_VERSION`), `check_context` on an address
space whose `context.id` is 0 calls `__new_context`. -/
theorem fresh_context_allocates (env : Env) (mm : MmId) (s : State)
    (hlive : ASID_FIRST_VERSION ≤ s.cpu_last_asid)
    (hfresh : (s.context mm).id = 0) :
    Event.new_context mm ∈ (check_context_asid env mm s).2 := by
  rw [check_context_asid_new_context_mem, asid_stale_iff, hfresh]
  refine ⟨rfl, ?_⟩
  have h1 : s.cpu_last_asid >>> ASID_BITS = s.cpu_last_asid / 256 := by
    rw [Nat.shiftRight_eq_div_pow]; rfl
  have h2 : ASID_FIRST_VERSION = 256 := by decide
  rw [h1, Nat.zero_shiftRight]
  omega

/-- Witness for C6: the boot state. -/
theorem fresh_context_allocates_witness :
    Event.new_context 5 ∈ (check_context_asid env_vipt 5 boot_state).2 :=
  fresh_context_allocates env_vipt 5 boot_state (by decide) rfl

theorem check_context_asid_check_kvm_seq_mem (env : Env) (mm m : MmId) (s : State) :
    Event.check_kvm_seq m ∈ (check_context_asid env mm s).2 ↔
      m = mm ∧ (s.context mm).kvm_seq ≠ (s.context init_mm).kvm_seq := by
  unfold check_context_asid
  simp only [check_kvm_events, List.mem_cons, List.mem_append]
  have hk : ∀ r : State × List Event,
      r = (if asid_stale (s.context mm).id s.cpu_last_asid = true then __new_context env mm s
        else (s, [])) →
      (∀ x, (r.1.context x).kvm_seq = (s.context x).kvm_seq) ∧ Event.check_kvm_seq m ∉ r.2 := by
    intro r hr
    split at hr
    · subst hr
      refine ⟨fun x => new_context_kvm_seq env mm x s, fun h => ?_⟩
      rcases new_context_events env mm s _ h with h' | h' | h' <;> cases h'
    · subst hr
      exact ⟨fun _ => rfl, by simp⟩
  obtain ⟨hk1, hk2⟩ := hk _ rfl
  rw [hk1 mm, hk1 init_mm]
  constructor
  · rintro (h | h | h)
    · cases h
    · exact absurd h hk2
    · split at h
      · rename_i hne
        simp only [List.mem_singleton] at h
        exact ⟨by injection h, hne⟩
      · simp at h
  · rintro ⟨rfl, hne⟩
    right; right
    rw [if_pos hne]
    simp

theorem check_context_noasid_check_kvm_seq_mem (cfg : Config) (mm m : MmId) (s : State) :
    Event.check_kvm_seq m ∈ (check_context_noasid cfg mm s).2 ↔
      cfg.MMU = true ∧ m = mm ∧ (s.context mm).kvm_seq ≠ (s.context init_mm).kvm_seq := by
  unfold check_context_noasid
  cases hM : cfg.MMU
  · simp
  · simp only [if_true, check_kvm_events, List.mem_cons]
    constructor
    · rintro (h | h)
      · cases h
      · split at h
        · rename_i hne
          simp only [List.mem_singleton] at h
          exact ⟨trivial, by injection h, hne⟩
        · simp at h
    · rintro ⟨-, rfl, hne⟩
      right
      rw [if_pos hne]
      simp

/-- C10: dynamic-mapping check. In the `CONFIG_CPU_HAS_ASID` variant of `check_context`,
and in the other variant under `CONFIG_MMU`, `__check_kvm_seq(mm)` is called if and only
if `mm->context.kvm_seq != init_mm.context.kvm_seq` held at entry, in every state and so
whatever the generation check did; with equal stamps there is no call. -/
theorem check_context_kvm_seq_iff (cfg : Config) (env : Env) (mm : MmId) (s : State) :
    (Event.check_kvm_seq mm ∈ (check_context_asid env mm s).2 ↔
      (s.context mm).kvm_seq ≠ (s.context init_mm).kvm_seq) ∧
    (cfg.MMU = true →
      (Event.check_kvm_seq mm ∈ (check_context_noasid cfg mm s).2 ↔
        (s.context mm).kvm_seq ≠ (s.context init_mm).kvm_seq)) := by
  refine ⟨?_, fun hM => ?_⟩
  · rw [check_context_asid_check_kvm_seq_mem]; simp
  · rw [check_context_noasid_check_kvm_seq_mem]; simp [hM]


/-! Frame and event facts for `check_context`. -/

theorem check_kvm_frame (mm : MmId) (s : State) :
    (check_kvm mm s).1 = { s with context := (check_kvm mm s).1.context } := by
  unfold check_kvm __check_kvm_seq State.set_kvm_seq
  split <;> rfl

theorem check_kvm_id (mm m : MmId) (s : State) :
    ((check_kvm mm s).1.context m).id = (s.context m).id := by
  unfold check_kvm __check_kvm_seq State.set_kvm_seq
  split
  · by_cases h : m = mm
    · subst h; simp
    · simp [Function.update_noteq h]
  · rfl

theorem check_kvm_other (mm m : MmId) (s : State) (h : m ≠ mm) :
    (check_kvm mm s).1.context m = s.context m := by
  unfold check_kvm __check_kvm_seq State.set_kvm_seq
  split
  · simp [Function.update_noteq h]
  · rfl

theorem check_kvm_last (mm : MmId) (s : State) :
    (check_kvm mm s).1.cpu_last_asid = s.cpu_last_asid := by
  rw [check_kvm_frame]

/-- After the dynamic-mapping test the stamp of `mm` is the global one. -/
theorem check_kvm_post (mm : MmId) (s : State) :
    ((check_kvm mm s).1.context mm).kvm_seq = ((check_kvm mm s).1.context init_mm).kvm_seq := by
  unfold check_kvm __check_kvm_seq State.set_kvm_seq
  split
  · by_cases h : init_mm = mm
    · rw [h]
    · simp [Function.update_noteq h]
  · rename_i h
    exact not_not.1 h

theorem check_kvm_fixed (mm : MmId) (s : State)
    (h : (s.context mm).kvm_seq = (s.context init_mm).kvm_seq) : check_kvm mm s = (s, []) := by
  unfold check_kvm
  rw [if_neg (not_not.2 h)]

theorem check_kvm_events_validation (mm : MmId) (s : State) :
    ∀ e ∈ (check_kvm mm s).2, e.is_validation = true := by
  rw [check_kvm_events]
  intro e he
  split at he
  · simp only [List.mem_singleton] at he
    subst he; rfl
  · simp at he

theorem new_context_frame (env : Env) (mm : MmId) (s : State) :
    (__new_context env mm s).1 =
      { s with cpu_last_asid := (s.cpu_last_asid + 1) % WORD,
               context := (__new_context env mm s).1.context } := rfl

theorem new_context_id (env : Env) (mm : MmId) (s : State) :
    ((__new_context env mm s).1.context mm).id = (s.cpu_last_asid + 1) % WORD := by
  simp [__new_context, State.set_context_id]

theorem new_context_other (env : Env) (mm m : MmId) (s : State) (h : m ≠ mm) :
    (__new_context env mm s).1.context m = s.context m := by
  simp [__new_context, State.set_context_id, Function.update_noteq h]

theorem new_context_events_validation (env : Env) (mm : MmId) (s : State) :
    ∀ e ∈ (__new_context env mm s).2, e.is_validation = true := by
  intro e he
  rcases new_context_events env mm s e he with h | h | h <;> subst h <;> rfl

/-- What `check_context` leaves alone: everything but `cpu_last_asid` and the contexts. -/
theorem check_context_frame (cfg : Config) (env : Env) (mm : MmId) (s : State) :
    (check_context cfg env mm s).1 =
      { s with cpu_last_asid := (check_context cfg env mm s).1.cpu_last_asid,
               context := (check_context cfg env mm s).1.context } := by
  unfold check_context check_context_asid check_context_noasid
  split
  · simp only
    split
    · rw [check_kvm_frame, new_context_frame]
    · rw [check_kvm_frame]
  · simp only
    split
    · rw [check_kvm_frame]
    · rfl

theorem check_context_other (cfg : Config) (env : Env) (mm m : MmId) (s : State) (h : m ≠ mm) :
    (check_context cfg env mm s).1.context m = s.context m := by
  unfold check_context check_context_asid check_context_noasid
  split
  · simp only
    split
    · rw [check_kvm_other _ _ _ h, new_context_other _ _ _ _ h]
    · rw [check_kvm_other _ _ _ h]
  · simp only
    split
    · rw [check_kvm_other _ _ _ h]
    · rfl

/-- The two ways `check_context` can treat the counter and the context ids: no
allocation, or one allocation for `mm`. -/
theorem check_context_alloc_cases (cfg : Config) (env : Env) (mm : MmId) (s : State) :
    ((check_context cfg env mm s).1.cpu_last_asid = s.cpu_last_asid ∧
      ∀ m, ((check_context cfg env mm s).1.context m).id = (s.context m).id) ∨
    ((check_context cfg env mm s).1.cpu_last_asid = (s.cpu_last_asid + 1) % WORD ∧
      ((check_context cfg env mm s).1.context mm).id = (s.cpu_last_asid + 1) % WORD ∧
      ∀ m, m ≠ mm → ((check_context cfg env mm s).1.context m).id = (s.context m).id) := by
  unfold check_context check_context_asid check_context_noasid
  split
  · simp only
    split
    · right
      refine ⟨?_, ?_, ?_⟩
      · rw [check_kvm_last]; rfl
      · rw [check_kvm_id, new_context_id]
      · intro m hm
        rw [check_kvm_id, new_context_other _ _ _ _ hm]
    · left
      exact ⟨check_kvm_last _ _, fun m => check_kvm_id _ _ _⟩
  · left
    simp only
    split
    · exact ⟨check_kvm_last _ _, fun m => check_kvm_id _ _ _⟩
    · exact ⟨rfl, fun _ => rfl⟩

/-- The calls of `check_context`: its own entry, then only validation calls. -/
theorem check_context_events (cfg : Config) (env : Env) (mm : MmId) (s : State) :
    ∃ v, (check_context cfg env mm s).2 = Event.check_context mm :: v ∧
      ∀ e ∈ v, e.is_validation = true := by
  unfold check_context check_context_asid check_context_noasid
  split
  · refine ⟨_, rfl, ?_⟩
    intro e he
    rw [List.mem_append] at he
    rcases he with he | he
    · split at he
      · exact new_context_events_validation env mm s e he
      · simp at he
    · exact check_kvm_events_validation _ _ e he
  · refine ⟨_, rfl, ?_⟩
    intro e he
    split at he
    · exact check_kvm_events_validation _ _ e he
    · simp at he

/-- After the `CONFIG_CPU_HAS_ASID` variant of `check_context` the generation of `mm` is
the current one and its stamp is the global one. -/
theorem check_context_asid_post (env : Env) (mm : MmId) (s : State) :
    asid_stale ((check_context_asid env mm s).1.context mm).id
        (check_context_asid env mm s).1.cpu_last_asid = false ∧
    ((check_context_asid env mm s).1.context mm).kvm_seq =
      ((check_context_asid env mm s).1.context init_mm).kvm_seq := by
  unfold check_context_asid
  simp only
  refine ⟨?_, check_kvm_post _ _⟩
  rw [check_kvm_id, check_kvm_last]
  split
  · rw [new_context_id]
    exact asid_stale_self _
  · rename_i h
    simpa using h

/-- On a validated address space `check_context` only records its own call. -/
theorem check_context_asid_fixed (env : Env) (mm : MmId) (s : State)
    (hid : asid_stale (s.context mm).id s.cpu_last_asid = false)
    (hk : (s.context mm).kvm_seq = (s.context init_mm).kvm_seq) :
    check_context_asid env mm s = (s, [Event.check_context mm]) := by
  unfold check_context_asid
  simp only [hid, Bool.false_eq_true, if_false, check_kvm_fixed mm s hk, List.append_nil]

/-! Frame and event facts for the debug block of `switch_mm`. -/

theorem tima_l2_step_frame (env : Env) (next : MmId) (acc : State × List Event) (i : Nat) :
    (tima_l2_step env next acc i).1 =
      { acc.1 with tima_debug_infra_cnt := (tima_l2_step env next acc i).1.tima_debug_infra_cnt } := by
  unfold tima_l2_step
  simp only
  split
  · rfl
  · split
    · rfl
    · split
      · rfl
      · split <;> rfl

theorem tima_l2_step_events (env : Env) (next : MmId) (acc : State × List Event) (i : Nat)
    (h : ∀ e ∈ acc.2, e.is_tima_debug = true) :
    ∀ e ∈ (tima_l2_step env next acc i).2, e.is_tima_debug = true := by
  unfold tima_l2_step
  simp only
  split
  · exact h
  · split
    · exact h
    · split
      · intro e he
        simp only [List.mem_append, List.mem_cons, List.mem_singleton, List.not_mem_nil,
          or_false] at he
        rcases he with he | rfl | rfl
        · exact h e he
        · rfl
        · rfl
      · split
        · intro e he
          simp only [List.mem_append, List.mem_singleton] at he
          rcases he with he | rfl
          · exact h e he
          · rfl
        · intro e he
          simp only [List.mem_append, List.mem_singleton] at he
          rcases he with he | rfl
          · exact h e he
          · rfl

theorem tima_l2_fold_frame (env : Env) (next : MmId) (l : List Nat) :
    ∀ acc : State × List Event,
      (l.foldl (tima_l2_step env next) acc).1 =
        { acc.1 with
          tima_debug_infra_cnt := (l.foldl (tima_l2_step env next) acc).1.tima_debug_infra_cnt } := by
  induction l with
  | nil => intro acc; rfl
  | cons i l ih =>
    intro acc
    rw [List.foldl_cons, ih (tima_l2_step env next acc i)]
    rw [tima_l2_step_frame env next acc i]

theorem tima_l2_fold_events (env : Env) (next : MmId) (l : List Nat) :
    ∀ acc : State × List Event, (∀ e ∈ acc.2, e.is_tima_debug = true) →
      ∀ e ∈ (l.foldl (tima_l2_step env next) acc).2, e.is_tima_debug = true := by
  induction l with
  | nil => intro acc h; exact h
  | cons i l ih =>
    intro acc h
    rw [List.foldl_cons]
    exact ih _ (tima_l2_step_events env next acc i h)

theorem tima_l1_step_events (env : Env) (next : MmId) (i : Nat) :
    ∀ e ∈ tima_l1_step env next i, e.is_tima_debug = true := by
  intro e he
  unfold tima_l1_step at he
  simp only [List.mem_cons] at he
  rcases he with rfl | he
  · rfl
  · split at he
    · simp only [List.mem_singleton] at he
      subst he
      rfl
    · simp at he

theorem tima_debug_frame (cfg : Config) (env : Env) (next : MmId) (s : State) :
    (tima_debug cfg env next s).1 =
      { s with tima_debug_infra_cnt := (tima_debug cfg env next s).1.tima_debug_infra_cnt } := by
  unfold tima_debug
  split
  · simp only
    split
    · exact tima_l2_fold_frame env next _ (s, [])
    · rfl
  · rfl

theorem tima_debug_events (cfg : Config) (env : Env) (next : MmId) (s : State) :
    ∀ e ∈ (tima_debug cfg env next s).2, e.is_tima_debug = true := by
  unfold tima_debug
  split
  · simp only
    intro e he
    rw [List.mem_append] at he
    rcases he with he | he
    · split at he
      · rw [List.mem_flatMap] at he
        obtain ⟨i, -, hi⟩ := he
        exact tima_l1_step_events env next i e hi
      · simp at he
    · split at he
      · exact tima_l2_fold_events env next _ (s, []) (by simp) e he
      · simp at he
  · simp

/-! Frame and event facts for the body of `switch_mm`. -/

theorem set_current_mm_frame (cfg : Config) (c : Cpu) (next : MmId) (s : State) :
    set_current_mm cfg c next s =
      { s with current_mm := (set_current_mm cfg c next s).current_mm } := by
  unfold set_current_mm
  split <;> rfl

theorem switch_mm_body_cpu_last_asid (cfg : Config) (env : Env) (c : Cpu) (prev next : MmId)
    (s : State) :
    (switch_mm_body cfg env c prev next s).1.cpu_last_asid =
      (check_context cfg env next (set_current_mm cfg c next s)).1.cpu_last_asid := by
  unfold switch_mm_body
  simp only
  split
  · show (tima_debug cfg env next _).1.cpu_last_asid = _
    rw [tima_debug_frame]; rfl
  · rw [tima_debug_frame]; rfl

theorem switch_mm_body_context (cfg : Config) (env : Env) (c : Cpu) (prev next : MmId)
    (s : State) :
    (switch_mm_body cfg env c prev next s).1.context =
      (check_context cfg env next (set_current_mm cfg c next s)).1.context := by
  unfold switch_mm_body
  simp only
  split
  · show (tima_debug cfg env next _).1.context = _
    rw [tima_debug_frame]; rfl
  · rw [tima_debug_frame]; rfl

theorem switch_mm_body_cpumask (cfg : Config) (env : Env) (c : Cpu) (prev next : MmId)
    (s : State) :
    (switch_mm_body cfg env c prev next s).1.cpumask =
      (if env.cache_is_vivt then Function.update s.cpumask prev ((s.cpumask prev).erase c)
        else s.cpumask) := by
  have h : (tima_debug cfg env next (cpu_switch_mm c (env.pgd next) next
      (check_context cfg env next (set_current_mm cfg c next s)).1).1).1.cpumask = s.cpumask := by
    rw [tima_debug_frame]
    show (check_context cfg env next (set_current_mm cfg c next s)).1.cpumask = _
    rw [check_context_frame, set_current_mm_frame]
  unfold switch_mm_body
  simp only
  split
  · show Function.update (tima_debug cfg env next _).1.cpumask prev _ = _
    rw [h]
  · exact h

theorem switch_mm_body_events (cfg : Config) (env : Env) (c : Cpu) (prev next : MmId)
    (s : State) :
    ∃ t, (∀ e ∈ t, e.is_tima_debug = true) ∧
      (switch_mm_body cfg env c prev next s).2 =
        (check_context cfg env next (set_current_mm cfg c next s)).2 ++
          Event.cpu_switch_mm (env.pgd next) next :: t ++
            (if env.cache_is_vivt then [Event.cpumask_clear_cpu c prev] else []) := by
  refine ⟨_, tima_debug_events cfg env next
    (cpu_switch_mm c (env.pgd next) next
      (check_context cfg env next (set_current_mm cfg c next s)).1).1, ?_⟩
  unfold switch_mm_body
  simp only
  unfold cpu_switch_mm
  split <;> simp

/-! The two paths of `switch_mm`. -/

/-- The fast path: `cpu` already in the mask of `next` and `prev == next`. -/
theorem switch_mm_fast (cfg : Config) (env : Env) (c : Cpu) (prev next : MmId) (s : State)
    (hM : cfg.MMU = true) (hc : c ∈ s.cpumask next) (hp : prev = next) :
    switch_mm cfg env c prev next s = (s, [Event.cpumask_test_and_set_cpu c next]) := by
  have hs : (cpumask_test_and_set_cpu c next s).2 = s := by
    unfold cpumask_test_and_set_cpu
    simp only [Finset.insert_eq_of_mem hc, Function.update_eq_self]
  have hf : migration_flush cfg c next s = [] := by
    unfold migration_flush cpumask_test_cpu
    simp [hc]
  unfold switch_mm
  simp only [hM, if_true, hf, hs, List.nil_append]
  have : (cpumask_test_and_set_cpu c next s).1 = true := by
    unfold cpumask_test_and_set_cpu; simp [hc]
  simp [this, hp]

/-- The slow path: `cpu` was not in the mask of `next`, or `prev != next`. -/
theorem switch_mm_slow (cfg : Config) (env : Env) (c : Cpu) (prev next : MmId) (s : State)
    (hM : cfg.MMU = true) (h : c ∉ s.cpumask next ∨ prev ≠ next) :
    switch_mm cfg env c prev next s =
      ((switch_mm_body cfg env c prev next (cpumask_test_and_set_cpu c next s).2).1,
       migration_flush cfg c next s ++ Event.cpumask_test_and_set_cpu c next ::
         (switch_mm_body cfg env c prev next (cpumask_test_and_set_cpu c next s).2).2) := by
  unfold switch_mm
  simp only [hM, if_true]
  have : (!(cpumask_test_and_set_cpu c next s).1 || decide (prev ≠ next)) = true := by
    unfold cpumask_test_and_set_cpu
    rcases h with h | h <;> simp [h]
  rw [if_pos this]

theorem migration_flush_eq (cfg : Config) (c : Cpu) (next : MmId) (s : State) :
    migration_flush cfg c next s =
      if cfg.SMP = true ∧ s.cpumask next ≠ ∅ ∧ c ∉ s.cpumask next then
        [Event.flush_icache_all c] else [] := by
  unfold migration_flush cpumask_empty cpumask_test_cpu
  by_cases h1 : cfg.SMP = true <;> by_cases h2 : s.cpumask next = ∅ <;>
    by_cases h3 : c ∈ s.cpumask next <;> simp [h1, h2, h3]

theorem filter_eq_nil_of (p : Event → Bool) (l : List Event) (h : ∀ e ∈ l, p e = false) :
    l.filter p = [] := by
  rw [List.filter_eq_nil_iff]
  intro e he
  rw [h e he]
  exact Bool.false_ne_true

theorem is_validation_kind (e : Event) (h : e.is_validation = true) :
    e.is_check_context = false ∧ e.is_cpu_switch_mm = false ∧ e.is_flush_icache_all = false ∧
      e.is_cpumask_clear_cpu = false := by
  cases e <;> simp_all [Event.is_validation, Event.is_check_context, Event.is_cpu_switch_mm,
    Event.is_flush_icache_all, Event.is_cpumask_clear_cpu]

theorem is_tima_debug_kind (e : Event) (h : e.is_tima_debug = true) :
    e.is_check_context = false ∧ e.is_cpu_switch_mm = false ∧ e.is_flush_icache_all = false ∧
      e.is_cpumask_clear_cpu = false ∧ e.is_new_context = false := by
  cases e <;> simp_all [Event.is_tima_debug, Event.is_check_context, Event.is_cpu_switch_mm,
    Event.is_flush_icache_all, Event.is_cpumask_clear_cpu, Event.is_new_context]

theorem filter_switch_events (p : Event → Bool) (F C v t : List Event) (a b d : Event)
    (hv : v.filter p = []) (ht : t.filter p = []) :
    (F ++ a :: b :: v ++ d :: t ++ C).filter p =
      F.filter p ++ ([a].filter p ++ ([b].filter p ++ ([d].filter p ++ C.filter p))) := by
  have e : F ++ a :: b :: v ++ d :: t ++ C = F ++ ([a] ++ ([b] ++ (v ++ ([d] ++ (t ++ C))))) := by
    simp
  rw [e]
  simp only [List.filter_append, hv, ht, List.nil_append]

/-- The calls of the slow path, in order. -/
theorem switch_mm_slow_events (cfg : Config) (env : Env) (c : Cpu) (prev next : MmId)
    (s : State) (hM : cfg.MMU = true) (h : c ∉ s.cpumask next ∨ prev ≠ next) :
    ∃ v t, (∀ e ∈ v, e.is_validation = true) ∧ (∀ e ∈ t, e.is_tima_debug = true) ∧
      (switch_mm cfg env c prev next s).2 =
        (if cfg.SMP = true ∧ s.cpumask next ≠ ∅ ∧ c ∉ s.cpumask next then
          [Event.flush_icache_all c] else []) ++
        Event.cpumask_test_and_set_cpu c next :: Event.check_context next :: v ++
        Event.cpu_switch_mm (env.pgd next) next :: t ++
        (if env.cache_is_vivt = true then [Event.cpumask_clear_cpu c prev] else []) := by
  obtain ⟨t, ht, hb⟩ :=
    switch_mm_body_events cfg env c prev next (cpumask_test_and_set_cpu c next s).2
  obtain ⟨v, hv, hval⟩ := check_context_events cfg env next
    (set_current_mm cfg c next (cpumask_test_and_set_cpu c next s).2)
  refine ⟨v, t, hval, ht, ?_⟩
  rw [switch_mm_slow cfg env c prev next s hM h, hb, hv, migration_flush_eq]
  simp

/-- C3: activation condition of `switch_mm` under `CONFIG_MMU`. Run on CPU `c`,
`switch_mm(prev, next, tsk)` calls `check_context(next)` and
`cpu_switch_mm(next->pgd, next)` if and only if `c` was not in `mm_cpumask(next)` at entry
or `prev != next`; then each is called exactly once, `check_context` first. Otherwise the
only call is `cpumask_test_and_set_cpu` on a bit that is already set (no validator, TLB
load, i-cache flush or debug hook) and the state is unchanged. -/
theorem switch_mm_activation (cfg : Config) (env : Env) (c : Cpu) (prev next : MmId)
    (s : State) (hM : cfg.MMU = true) :
    (Event.check_context next ∈ (switch_mm cfg env c prev next s).2 ↔
      (c ∉ s.cpumask next ∨ prev ≠ next)) ∧
    (Event.cpu_switch_mm (env.pgd next) next ∈ (switch_mm cfg env c prev next s).2 ↔
      (c ∉ s.cpumask next ∨ prev ≠ next)) ∧
    ((c ∉ s.cpumask next ∨ prev ≠ next) →
      (switch_mm cfg env c prev next s).2.filter
          (fun e => e.is_check_context || e.is_cpu_switch_mm) =
        [Event.check_context next, Event.cpu_switch_mm (env.pgd next) next]) ∧
    (¬ (c ∉ s.cpumask next ∨ prev ≠ next) →
      switch_mm cfg env c prev next s = (s, [Event.cpumask_test_and_set_cpu c next])) := by
  have hfast : ¬ (c ∉ s.cpumask next ∨ prev ≠ next) →
      switch_mm cfg env c prev next s = (s, [Event.cpumask_test_and_set_cpu c next]) := by
    intro h
    rw [not_or, not_not, not_not] at h
    exact switch_mm_fast cfg env c prev next s hM h.1 h.2
  have hslow : (c ∉ s.cpumask next ∨ prev ≠ next) →
      (switch_mm cfg env c prev next s).2.filter
          (fun e => e.is_check_context || e.is_cpu_switch_mm) =
        [Event.check_context next, Event.cpu_switch_mm (env.pgd next) next] := by
    intro h
    obtain ⟨v, t, hv, ht, hev⟩ := switch_mm_slow_events cfg env c prev next s hM h
    have hv0 : v.filter (fun e => e.is_check_context || e.is_cpu_switch_mm) = [] :=
      filter_eq_nil_of _ _ (fun e he => by
        obtain ⟨h1, h2, -⟩ := is_validation_kind e (hv e he)
        simp [h1, h2])
    have ht0 : t.filter (fun e => e.is_check_context || e.is_cpu_switch_mm) = [] :=
      filter_eq_nil_of _ _ (fun e he => by
        obtain ⟨h1, h2, -⟩ := is_tima_debug_kind e (ht e he)
        simp [h1, h2])
    rw [hev, filter_switch_events _ _ _ _ _ _ _ _ hv0 ht0]
    split_ifs <;> rfl
  refine ⟨?_, ?_, hslow, hfast⟩
  · constructor
    · intro hmem
      by_contra hn
      rw [hfast hn] at hmem
      simp at hmem
    · intro h
      have : Event.check_context next ∈ (switch_mm cfg env c prev next s).2.filter
          (fun e => e.is_check_context || e.is_cpu_switch_mm) := by
        rw [hslow h]; simp
      exact (List.mem_filter.1 this).1
  · constructor
    · intro hmem
      by_contra hn
      rw [hfast hn] at hmem
      simp at hmem
    · intro h
      have : Event.cpu_switch_mm (env.pgd next) next ∈
          (switch_mm cfg env c prev next s).2.filter
            (fun e => e.is_check_context || e.is_cpu_switch_mm) := by
        rw [hslow h]; simp
      exact (List.mem_filter.1 this).1

/-- The mask of every address space after `switch_mm` under `CONFIG_MMU`. -/
theorem switch_mm_cpumask (cfg : Config) (env : Env) (c : Cpu) (prev next : MmId) (s : State)
    (hM : cfg.MMU = true) :
    (switch_mm cfg env c prev next s).1.cpumask =
      if (c ∉ s.cpumask next ∨ prev ≠ next) ∧ env.cache_is_vivt = true then
        Function.update (Function.update s.cpumask next (insert c (s.cpumask next))) prev
          ((Function.update s.cpumask next (insert c (s.cpumask next)) prev).erase c)
      else Function.update s.cpumask next (insert c (s.cpumask next)) := by
  by_cases h : c ∉ s.cpumask next ∨ prev ≠ next
  · rw [switch_mm_slow cfg env c prev next s hM h]
    simp only [switch_mm_body_cpumask, h, true_and]
    rfl
  · rw [if_neg (fun hh => h hh.1)]
    rw [not_or, not_not, not_not] at h
    rw [switch_mm_fast cfg env c prev next s hM h.1 h.2]
    simp only [Finset.insert_eq_of_mem h.1, Function.update_eq_self]

/-- What the code leaves in `mm_cpumask(next)` under `CONFIG_MMU`: its value at entry with
`c` added, except when `cache_is_vivt()` holds, `prev == next` and `c` was not in the mask
at entry. In that case `cpumask_clear_cpu(cpu, mm_cpumask(prev))`, which has no
`prev != next` test around it, clears the bit that `cpumask_test_and_set_cpu` has just
set. That case is a defect of the code, shown at a concrete input below. -/
theorem switch_mm_records_residency (cfg : Config) (env : Env) (c : Cpu) (prev next : MmId)
    (s : State) (hM : cfg.MMU = true) :
    (switch_mm cfg env c prev next s).1.cpumask next =
      if env.cache_is_vivt = true ∧ prev = next ∧ c ∉ s.cpumask next then s.cpumask next
      else insert c (s.cpumask next) := by
  rw [switch_mm_cpumask cfg env c prev next s hM]
  by_cases hv : env.cache_is_vivt = true
  · by_cases hp : prev = next
    · subst hp
      by_cases hc : c ∈ s.cpumask prev
      · simp [hc]
      · simp [hc, hv, Finset.erase_insert hc]
    · simp [hp, hv, Function.update_noteq (Ne.symm hp)]
  · simp [hv]

/-- Migration example: residency set `{0}`, activation on CPU 1, result `{0, 1}`. -/
theorem switch_mm_records_residency_witness :
    (switch_mm cfg_smp env_vipt 1 5 7 (cpumask_test_and_set_cpu 0 7 boot_state).2).1.cpumask 7 =
      {0, 1} :=
  (switch_mm_records_residency cfg_smp env_vipt 1 5 7 (cpumask_test_and_set_cpu 0 7 boot_state).2
    rfl).trans (by decide)

/-- C7 (failing input): on a VIVT uniprocessor, `switch_mm(5, 5, tsk)` on CPU 0 from the
boot state, where CPU 0 is not in `mm_cpumask` of address space 5, returns without CPU 0
in that mask, although every activation is to record residency: the VIVT cleanup clears the
bit set a few lines earlier in the same call. -/
theorem switch_mm_vivt_self_switch_not_recorded :
    (switch_mm cfg_up env_vivt 0 5 5 boot_state).1.cpumask 5 ≠
      insert 0 (boot_state.cpumask 5) := by
  decide

/-- C8: migration i-cache flush under `CONFIG_SMP` (and `CONFIG_MMU`). `switch_mm` run on
CPU `c` calls `__flush_icache_all` if and only if `mm_cpumask(next)` at entry is not empty
and does not hold `c`. When it flushes it does so exactly once, the same call also makes
one `check_context` and one `cpu_switch_mm` call, and the flush comes first. With an empty
mask, or with `c` already in it, no flush is made. -/
theorem switch_mm_migration_flush (cfg : Config) (env : Env) (c : Cpu) (prev next : MmId)
    (s : State) (hM : cfg.MMU = true) (hS : cfg.SMP = true) :
    (Event.flush_icache_all c ∈ (switch_mm cfg env c prev next s).2 ↔
      (s.cpumask next ≠ ∅ ∧ c ∉ s.cpumask next)) ∧
    ((s.cpumask next ≠ ∅ ∧ c ∉ s.cpumask next) →
      (switch_mm cfg env c prev next s).2.filter
          (fun e => e.is_flush_icache_all || e.is_check_context || e.is_cpu_switch_mm) =
        [Event.flush_icache_all c, Event.check_context next,
          Event.cpu_switch_mm (env.pgd next) next]) ∧
    (¬ (s.cpumask next ≠ ∅ ∧ c ∉ s.cpumask next) →
      ∀ e ∈ (switch_mm cfg env c prev next s).2, e.is_flush_icache_all = false) := by
  have hyes : (s.cpumask next ≠ ∅ ∧ c ∉ s.cpumask next) →
      (switch_mm cfg env c prev next s).2.filter
          (fun e => e.is_flush_icache_all || e.is_check_context || e.is_cpu_switch_mm) =
        [Event.flush_icache_all c, Event.check_context next,
          Event.cpu_switch_mm (env.pgd next) next] := by
    intro h
    obtain ⟨v, t, hv, ht, hev⟩ := switch_mm_slow_events cfg env c prev next s hM (Or.inl h.2)
    have hv0 : v.filter
        (fun e => e.is_flush_icache_all || e.is_check_context || e.is_cpu_switch_mm) = [] :=
      filter_eq_nil_of _ _ (fun e he => by
        obtain ⟨h1, h2, h3, -⟩ := is_validation_kind e (hv e he)
        simp [h1, h2, h3])
    have ht0 : t.filter
        (fun e => e.is_flush_icache_all || e.is_check_context || e.is_cpu_switch_mm) = [] :=
      filter_eq_nil_of _ _ (fun e he => by
        obtain ⟨h1, h2, h3, -⟩ := is_tima_debug_kind e (ht e he)
        simp [h1, h2, h3])
    rw [hev, filter_switch_events _ _ _ _ _ _ _ _ hv0 ht0, if_pos ⟨hS, h⟩]
    split_ifs <;> rfl
  have hno : ¬ (s.cpumask next ≠ ∅ ∧ c ∉ s.cpumask next) →
      ∀ e ∈ (switch_mm cfg env c prev next s).2, e.is_flush_icache_all = false := by
    intro h e he
    by_cases hslow : c ∉ s.cpumask next ∨ prev ≠ next
    · obtain ⟨v, t, hv, ht, hev⟩ := switch_mm_slow_events cfg env c prev next s hM hslow
      rw [hev, if_neg (fun hh => h hh.2)] at he
      simp only [List.nil_append, List.mem_append, List.mem_cons] at he
      rcases he with ((rfl | rfl | he) | rfl | he) | he
      · rfl
      · rfl
      · exact (is_validation_kind e (hv e he)).2.2.1
      · rfl
      · exact (is_tima_debug_kind e (ht e he)).2.2.1
      · split at he
        · simp only [List.mem_singleton] at he
          subst he; rfl
        · simp at he
    · rw [not_or, not_not, not_not] at hslow
      rw [switch_mm_fast cfg env c prev next s hM hslow.1 hslow.2] at he
      simp only [List.mem_singleton] at he
      subst he; rfl
  refine ⟨⟨fun hmem => ?_, fun h => ?_⟩, hyes, hno⟩
  · by_contra hn
    have := hno hn _ hmem
    simp [Event.is_flush_icache_all] at this
  · have : Event.flush_icache_all c ∈ (switch_mm cfg env c prev next s).2.filter
        (fun e => e.is_flush_icache_all || e.is_check_context || e.is_cpu_switch_mm) := by
      rw [hyes h]; simp
    exact (List.mem_filter.1 this).1

/-- C9: outgoing VIVT cleanup under `CONFIG_MMU`, for `prev != next`. If `cache_is_vivt()`
holds, after `switch_mm` on CPU `c` the mask of `prev` is its value at entry without `c`
(every other CPU as at entry), and `cpumask_clear_cpu` is called after `cpu_switch_mm`.
Otherwise the mask of `prev` is exactly as at entry and nothing is cleared. -/
theorem switch_mm_vivt_cleanup (cfg : Config) (env : Env) (c : Cpu) (prev next : MmId)
    (s : State) (hM : cfg.MMU = true) (hne : prev ≠ next) :
    (env.cache_is_vivt = true →
      (switch_mm cfg env c prev next s).1.cpumask prev = (s.cpumask prev).erase c ∧
      (switch_mm cfg env c prev next s).2.filter
          (fun e => e.is_cpu_switch_mm || e.is_cpumask_clear_cpu) =
        [Event.cpu_switch_mm (env.pgd next) next, Event.cpumask_clear_cpu c prev]) ∧
    (env.cache_is_vivt = false →
      (switch_mm cfg env c prev next s).1.cpumask prev = s.cpumask prev ∧
      ∀ e ∈ (switch_mm cfg env c prev next s).2, e.is_cpumask_clear_cpu = false) := by
  obtain ⟨v, t, hv, ht, hev⟩ := switch_mm_slow_events cfg env c prev next s hM (Or.inr hne)
  have hmask := switch_mm_cpumask cfg env c prev next s hM
  constructor
  · intro hvivt
    constructor
    · rw [hmask, if_pos ⟨Or.inr hne, hvivt⟩]
      simp [Function.update_noteq hne]
    · have hv0 : v.filter (fun e => e.is_cpu_switch_mm || e.is_cpumask_clear_cpu) = [] :=
        filter_eq_nil_of _ _ (fun e he => by
          obtain ⟨-, h2, -, h4⟩ := is_validation_kind e (hv e he)
          simp [h2, h4])
      have ht0 : t.filter (fun e => e.is_cpu_switch_mm || e.is_cpumask_clear_cpu) = [] :=
        filter_eq_nil_of _ _ (fun e he => by
          obtain ⟨-, h2, -, h4, -⟩ := is_tima_debug_kind e (ht e he)
          simp [h2, h4])
      rw [hev, filter_switch_events _ _ _ _ _ _ _ _ hv0 ht0, if_pos hvivt]
      split_ifs <;> rfl
  · intro hvivt
    constructor
    · rw [hmask, if_neg (fun hh => by simp [hvivt] at hh)]
      simp [Function.update_noteq hne]
    · intro e he
      rw [hev] at he
      simp only [hvivt, Bool.false_eq_true, if_false, List.append_nil, List.mem_append,
        List.mem_cons] at he
      rcases he with (he | rfl | rfl | he) | rfl | he
      · split at he
        · simp only [List.mem_singleton] at he
          subst he; rfl
        · simp at he
      · rfl
      · rfl
      · exact (is_validation_kind e (hv e he)).2.2.2
      · rfl
      · exact (is_tima_debug_kind e (ht e he)).2.2.2.1

theorem switch_mm_nommu (cfg : Config) (env : Env) (c : Cpu) (prev next : MmId) (s : State)
    (hM : cfg.MMU = false) : switch_mm cfg env c prev next s = (s, []) := by
  unfold switch_mm
  simp [hM]

theorem pre_check_frame (cfg : Config) (c : Cpu) (next : MmId) (s : State) :
    (set_current_mm cfg c next (cpumask_test_and_set_cpu c next s).2).cpu_last_asid =
        s.cpu_last_asid ∧
    (set_current_mm cfg c next (cpumask_test_and_set_cpu c next s).2).context = s.context := by
  rw [set_current_mm_frame]
  exact ⟨rfl, rfl⟩

/-- The calls of the slow path, with those of `check_context` kept as they are. -/
theorem switch_mm_slow_check_events (cfg : Config) (env : Env) (c : Cpu) (prev next : MmId)
    (s : State) (hM : cfg.MMU = true) (h : c ∉ s.cpumask next ∨ prev ≠ next) :
    ∃ t, (∀ e ∈ t, e.is_tima_debug = true) ∧
      (switch_mm cfg env c prev next s).2 =
        (if cfg.SMP = true ∧ s.cpumask next ≠ ∅ ∧ c ∉ s.cpumask next then
          [Event.flush_icache_all c] else []) ++
        Event.cpumask_test_and_set_cpu c next ::
          (check_context cfg env next
            (set_current_mm cfg c next (cpumask_test_and_set_cpu c next s).2)).2 ++
        Event.cpu_switch_mm (env.pgd next) next :: t ++
        (if env.cache_is_vivt = true then [Event.cpumask_clear_cpu c prev] else []) := by
  obtain ⟨t, ht, hb⟩ :=
    switch_mm_body_events cfg env c prev next (cpumask_test_and_set_cpu c next s).2
  refine ⟨t, ht, ?_⟩
  rw [switch_mm_slow cfg env c prev next s hM h, hb, migration_flush_eq]
  simp

/-- What the slow path does to the counter and the contexts is what `check_context` does. -/
theorem switch_mm_slow_context (cfg : Config) (env : Env) (c : Cpu) (prev next : MmId)
    (s : State) (hM : cfg.MMU = true) (h : c ∉ s.cpumask next ∨ prev ≠ next) :
    (switch_mm cfg env c prev next s).1.cpu_last_asid =
      (check_context cfg env next
        (set_current_mm cfg c next (cpumask_test_and_set_cpu c next s).2)).1.cpu_last_asid ∧
    (switch_mm cfg env c prev next s).1.context =
      (check_context cfg env next
        (set_current_mm cfg c next (cpumask_test_and_set_cpu c next s).2)).1.context := by
  rw [switch_mm_slow cfg env c prev next s hM h]
  exact ⟨switch_mm_body_cpu_last_asid _ _ _ _ _ _, switch_mm_body_context _ _ _ _ _ _⟩

/-- Each call of `switch_mm` allocates at most once, and only for `next`. -/
theorem switch_mm_alloc_cases (cfg : Config) (env : Env) (c : Cpu) (prev next : MmId)
    (s : State) :
    ((switch_mm cfg env c prev next s).1.cpu_last_asid = s.cpu_last_asid ∧
      ∀ m, ((switch_mm cfg env c prev next s).1.context m).id = (s.context m).id) ∨
    ((switch_mm cfg env c prev next s).1.cpu_last_asid = (s.cpu_last_asid + 1) % WORD ∧
      ((switch_mm cfg env c prev next s).1.context next).id = (s.cpu_last_asid + 1) % WORD ∧
      ∀ m, m ≠ next → ((switch_mm cfg env c prev next s).1.context m).id = (s.context m).id) := by
  cases hM : cfg.MMU
  · rw [switch_mm_nommu _ _ _ _ _ _ hM]
    exact Or.inl ⟨rfl, fun _ => rfl⟩
  · by_cases h : c ∉ s.cpumask next ∨ prev ≠ next
    · obtain ⟨h1, h2⟩ := switch_mm_slow_context cfg env c prev next s hM h
      obtain ⟨f1, f2⟩ := pre_check_frame cfg c next s
      rw [h1, h2]
      have := check_context_alloc_cases cfg env next
        (set_current_mm cfg c next (cpumask_test_and_set_cpu c next s).2)
      rw [f1, f2] at this
      exact this
    · rw [not_or, not_not, not_not] at h
      rw [switch_mm_fast cfg env c prev next s hM h.1 h.2]
      exact Or.inl ⟨rfl, fun _ => rfl⟩

/-- The invariant behind ASID uniqueness: the counter is a live generation, bounds every
context id, and equal context ids of distinct address spaces are 0. -/
theorem reachable_inv (cfg : Config) (s : State) (h : Reachable cfg s) :
    ASID_FIRST_VERSION ≤ s.cpu_last_asid ∧
    (∀ m, (s.context m).id ≤ s.cpu_last_asid) ∧
    (∀ m1 m2, m1 ≠ m2 → (s.context m1).id = (s.context m2).id → (s.context m1).id = 0) := by
  induction h with
  | boot s hid hlast =>
    refine ⟨le_of_eq hlast.symm, fun m => ?_, fun m1 _ _ _ => hid m1⟩
    rw [hid m]; exact Nat.zero_le _
  | step env c prev next s _ hnowrap ih =>
    obtain ⟨i1, i2, i3⟩ := ih
    rcases switch_mm_alloc_cases cfg env c prev next s with ⟨a1, a2⟩ | ⟨a1, a2, a3⟩
    · refine ⟨by rw [a1]; exact i1, fun m => by rw [a1, a2]; exact i2 m, fun m1 m2 hne he => ?_⟩
      rw [a2] at he ⊢
      rw [a2] at he
      exact i3 m1 m2 hne he
    · rw [a1] at hnowrap
      have hW : WORD = 4294967296 := by decide
      have hstep : (s.cpu_last_asid + 1) % WORD = s.cpu_last_asid + 1 := by
        rw [hW] at hnowrap ⊢
        omega
      rw [hstep] at a1 a2
      refine ⟨by rw [a1]; omega, fun m => ?_, fun m1 m2 hne he => ?_⟩
      · by_cases hm : m = next
        · rw [hm, a1, a2]
        · rw [a1, a3 m hm]
          have := i2 m
          omega
      · by_cases h1 : m1 = next
        · have h2 : m2 ≠ next := fun h2 => hne (h1.trans h2.symm)
          rw [h1, a2, a3 m2 h2] at he
          have := i2 m2
          omega
        · by_cases h2 : m2 = next
          · rw [h2, a2, a3 m1 h1] at he
            have := i2 m1
            omega
          · rw [a3 m1 h1] at he ⊢
            rw [a3 m2 h2] at he
            exact i3 m1 m2 hne he

/-- C1: ASID uniqueness in every reachable state. With allocation as in the spec, from a
boot state (all `context.id` 0, `cpu_last_asid = ASID_FIRST_VERSION`) and as long as the
counter does not wrap, two distinct address spaces whose generation `context.id >> 8` is
the current generation `cpu_last_asid >> 8` have different context ids, hence different
ASIDs (low 8 bits). -/
theorem asid_unique (cfg : Config) (s : State) (h : Reachable cfg s) (m1 m2 : MmId)
    (hne : m1 ≠ m2)
    (h1 : (s.context m1).id >>> ASID_BITS = s.cpu_last_asid >>> ASID_BITS)
    (h2 : (s.context m2).id >>> ASID_BITS = s.cpu_last_asid >>> ASID_BITS) :
    (s.context m1).id ≠ (s.context m2).id ∧
    (s.context m1).id % 2 ^ ASID_BITS ≠ (s.context m2).id % 2 ^ ASID_BITS := by
  obtain ⟨i1, -, i3⟩ := reachable_inv cfg s h
  have hA : ASID_FIRST_VERSION = 256 := by decide
  simp only [ASID_BITS, Nat.shiftRight_eq_div_pow] at h1 h2 ⊢
  have hid : (s.context m1).id ≠ (s.context m2).id := by
    intro he
    have h0 := i3 m1 m2 hne he
    rw [h0] at h1
    rw [hA] at i1
    omega
  refine ⟨hid, fun hlow => hid ?_⟩
  omega

/-- Witness for C1: two address spaces activated one after the other from the boot state
get context ids 257 and 258. -/
theorem asid_unique_witness :
    ((switch_mm cfg_smp env_vipt 1 5 7
        (switch_mm cfg_smp env_vipt 0 7 5 boot_state).1).1.context 5).id ≠
      ((switch_mm cfg_smp env_vipt 1 5 7
        (switch_mm cfg_smp env_vipt 0 7 5 boot_state).1).1.context 7).id ∧
    ((switch_mm cfg_smp env_vipt 1 5 7
        (switch_mm cfg_smp env_vipt 0 7 5 boot_state).1).1.context 5).id % 2 ^ ASID_BITS ≠
      ((switch_mm cfg_smp env_vipt 1 5 7
        (switch_mm cfg_smp env_vipt 0 7 5 boot_state).1).1.context 7).id % 2 ^ ASID_BITS :=
  asid_unique cfg_smp _
    (Reachable.step env_vipt 1 5 7 _
      (Reachable.step env_vipt 0 7 5 _ (Reachable.boot boot_state (fun _ => rfl) rfl)
        (by decide))
      (by decide))
    5 7 (by decide) (by decide) (by decide)

/-- Without a stale generation `check_context` does not allocate. -/
theorem check_context_no_alloc (cfg : Config) (env : Env) (mm : MmId) (s : State)
    (h : cfg.CPU_HAS_ASID = true → asid_stale (s.context mm).id s.cpu_last_asid = false) :
    ∀ e ∈ (check_context cfg env mm s).2, e.is_new_context = false := by
  intro e he
  unfold check_context at he
  split at he
  · rename_i hA
    unfold check_context_asid at he
    simp only [h hA, Bool.false_eq_true, if_false, List.nil_append, List.mem_cons,
      check_kvm_events] at he
    rcases he with rfl | he
    · rfl
    · split at he
      · simp only [List.mem_singleton] at he
        subst he; rfl
      · simp at he
  · unfold check_context_noasid at he
    simp only [List.mem_cons] at he
    rcases he with rfl | he
    · rfl
    · split at he
      · rw [check_kvm_events] at he
        split at he
        · simp only [List.mem_singleton] at he
          subst he; rfl
        · simp at he
      · simp at he

/-- After `check_context` the address space is validated: with `CONFIG_CPU_HAS_ASID` its
generation is the current one, and with `CONFIG_CPU_HAS_ASID` or `CONFIG_MMU` its stamp is
the global one. -/
theorem check_context_post (cfg : Config) (env : Env) (mm : MmId) (s : State) :
    (cfg.CPU_HAS_ASID = true →
      asid_stale ((check_context cfg env mm s).1.context mm).id
        (check_context cfg env mm s).1.cpu_last_asid = false) ∧
    (cfg.CPU_HAS_ASID = true ∨ cfg.MMU = true →
      ((check_context cfg env mm s).1.context mm).kvm_seq =
        ((check_context cfg env mm s).1.context init_mm).kvm_seq) := by
  unfold check_context
  cases hA : cfg.CPU_HAS_ASID
  · simp only [Bool.false_eq_true, if_false, false_or, false_implies, true_and]
    intro hM
    unfold check_context_noasid
    simp only [hM, if_true]
    exact check_kvm_post _ _
  · simp only [if_true, true_or, true_implies]
    exact check_context_asid_post env mm s

/-- C5: validation is idempotent and allocates at most once. One call of
`check_context(mm)` makes at most one `__new_context` and at most one `__check_kvm_seq`
call; a second call right after it only records its own entry and changes nothing. With
counter 256 and `context.id` 0: `(0 ^ 256) >> 8 = 1`, allocation, counter 257 and
`context.id` 257; then `(257 ^ 257) >> 8 = 0` and no allocation. -/
theorem check_context_idempotent (cfg : Config) (env : Env) (mm : MmId) (s : State) :
    (check_context cfg env mm s).2.countP Event.is_new_context ≤ 1 ∧
    (check_context cfg env mm s).2.countP Event.is_check_kvm_seq ≤ 1 ∧
    check_context cfg env mm (check_context cfg env mm s).1 =
      ((check_context cfg env mm s).1, [Event.check_context mm]) ∧
    (cfg.CPU_HAS_ASID = true → s.cpu_last_asid = 256 → (s.context mm).id = 0 →
      (0 ^^^ 256) >>> ASID_BITS = 1 ∧
      Event.new_context mm ∈ (check_context cfg env mm s).2 ∧
      (check_context cfg env mm s).1.cpu_last_asid = 257 ∧
      ((check_context cfg env mm s).1.context mm).id = 257 ∧
      (257 ^^^ 257) >>> ASID_BITS = 0 ∧
      ∀ e ∈ (check_context cfg env mm (check_context cfg env mm s).1).2,
        e.is_new_context = false) := by
  have hidem : check_context cfg env mm (check_context cfg env mm s).1 =
      ((check_context cfg env mm s).1, [Event.check_context mm]) := by
    obtain ⟨p1, p2⟩ := check_context_post cfg env mm s
    cases hA : cfg.CPU_HAS_ASID
    · cases hM : cfg.MMU
      · simp [check_context, check_context_noasid, hA, hM]
      · have := p2 (Or.inr hM)
        generalize (check_context cfg env mm s).1 = s1 at this ⊢
        simp only [check_context, check_context_noasid, hA, hM, Bool.false_eq_true, if_false,
          if_true, check_kvm_fixed mm s1 this]
    · have h1 := p1 hA
      have h2 := p2 (Or.inl hA)
      generalize (check_context cfg env mm s).1 = s1 at h1 h2 ⊢
      simp only [check_context, hA, if_true, check_context_asid_fixed env mm s1 h1 h2]
  refine ⟨?_, ?_, hidem, ?_⟩
  · unfold check_context check_context_asid check_context_noasid __new_context
    split_ifs <;> simp only [check_kvm_events] <;> (try split_ifs) <;>
      simp [List.countP_cons, Event.is_new_context]
  · unfold check_context check_context_asid check_context_noasid __new_context
    split_ifs <;> simp only [check_kvm_events] <;> (try split_ifs) <;>
      simp [List.countP_cons, Event.is_check_kvm_seq]
  · intro hA hlast hid
    have hstale : asid_stale (s.context mm).id s.cpu_last_asid = true := by
      rw [hid, hlast]; decide
    have hmem : Event.new_context mm ∈ (check_context cfg env mm s).2 := by
      simp only [check_context, hA, if_true]
      exact (check_context_asid_new_context_mem env mm mm s).2 ⟨rfl, hstale⟩
    have hst : (check_context cfg env mm s).1.cpu_last_asid = 257 ∧
        ((check_context cfg env mm s).1.context mm).id = 257 := by
      have e : (check_context cfg env mm s).1.cpu_last_asid = (s.cpu_last_asid + 1) % WORD ∧
          ((check_context cfg env mm s).1.context mm).id = (s.cpu_last_asid + 1) % WORD := by
        simp only [check_context, hA, if_true, check_context_asid, hstale, check_kvm_last,
          check_kvm_id, new_context_id, and_true]
        rfl
      rw [e.1, e.2, hlast]
      exact ⟨by decide, by decide⟩
    refine ⟨by decide, hmem, hst.1, hst.2, by decide, ?_⟩
    rw [hidem]
    intro e he
    simp only [List.mem_singleton] at he
    subst he; rfl

/-- After a slow-path `switch_mm` the address space `next` is validated. -/
theorem switch_mm_slow_post (cfg : Config) (env : Env) (c : Cpu) (prev next : MmId)
    (s : State) (hM : cfg.MMU = true) (h : c ∉ s.cpumask next ∨ prev ≠ next) :
    (cfg.CPU_HAS_ASID = true →
      asid_stale ((switch_mm cfg env c prev next s).1.context next).id
        (switch_mm cfg env c prev next s).1.cpu_last_asid = false) ∧
    (((switch_mm cfg env c prev next s).1.context next).kvm_seq =
      ((switch_mm cfg env c prev next s).1.context init_mm).kvm_seq) := by
  obtain ⟨h1, h2⟩ := switch_mm_slow_context cfg env c prev next s hM h
  obtain ⟨p1, p2⟩ := check_context_post cfg env next
    (set_current_mm cfg c next (cpumask_test_and_set_cpu c next s).2)
  rw [h1, h2]
  exact ⟨p1, p2 (Or.inr hM)⟩

/-- What the code does on an immediately repeated `switch_mm(M, M, tsk)` on CPU `c` after
`switch_mm(prev, M, tsk)`: it never calls `__new_context`, and it calls `cpu_switch_mm`
zero times, except under `CONFIG_MMU` when `cache_is_vivt()` holds, `prev == M` and `c` was
not in `mm_cpumask(M)` when the first call was entered. There the first call has cleared
the bit of `c` again and the repeat loads the TLB once more. That case is a defect of the
code, shown at a concrete input below. -/
theorem switch_mm_repeat (cfg : Config) (env : Env) (c : Cpu) (prev M : MmId) (s : State) :
    (switch_mm cfg env c M M (switch_mm cfg env c prev M s).1).2.countP
        Event.is_new_context = 0 ∧
    (switch_mm cfg env c M M (switch_mm cfg env c prev M s).1).2.countP
        Event.is_cpu_switch_mm =
      if cfg.MMU = true ∧ env.cache_is_vivt = true ∧ prev = M ∧ c ∉ s.cpumask M then 1
      else 0 := by
  rw [List.countP_eq_zero]
  simp only [Bool.not_eq_true]
  cases hM : cfg.MMU
  · rw [switch_mm_nommu _ _ _ _ _ _ hM, switch_mm_nommu _ _ _ _ _ _ hM]
    simp
  · by_cases hcorner : env.cache_is_vivt = true ∧ prev = M ∧ c ∉ s.cpumask M
    · obtain ⟨hv, hp, hc⟩ := hcorner
      subst hp
      have hmask : (switch_mm cfg env c prev prev s).1.cpumask prev = s.cpumask prev := by
        rw [switch_mm_cpumask cfg env c prev prev s hM]
        simp [hc, hv, Finset.erase_insert hc]
      have hc1 : c ∉ (switch_mm cfg env c prev prev s).1.cpumask prev := by
        rw [hmask]; exact hc
      obtain ⟨q1, -⟩ := switch_mm_slow_post cfg env c prev prev s hM (Or.inl hc)
      obtain ⟨t, ht, hev⟩ := switch_mm_slow_check_events cfg env c prev prev
        (switch_mm cfg env c prev prev s).1 hM (Or.inl hc1)
      obtain ⟨f1, f2⟩ := pre_check_frame cfg c prev (switch_mm cfg env c prev prev s).1
      have hna := check_context_no_alloc cfg env prev
        (set_current_mm cfg c prev
          (cpumask_test_and_set_cpu c prev (switch_mm cfg env c prev prev s).1).2)
        (by rw [f1, f2]; exact q1)
      obtain ⟨v, hcc, hval⟩ := check_context_events cfg env prev
        (set_current_mm cfg c prev
          (cpumask_test_and_set_cpu c prev (switch_mm cfg env c prev prev s).1).2)
      constructor
      · intro e he
        rw [hev] at he
        simp only [List.mem_append, List.mem_cons] at he
        rcases he with ((he | rfl | he) | rfl | he) | he
        · split at he
          · simp only [List.mem_singleton] at he
            subst he; rfl
          · simp at he
        · rfl
        · exact hna e he
        · rfl
        · exact (is_tima_debug_kind e (ht e he)).2.2.2.2
        · rw [if_pos hv] at he
          simp only [List.mem_singleton] at he
          subst he; rfl
      · have hv0 : v.filter Event.is_cpu_switch_mm = [] :=
          filter_eq_nil_of _ _ (fun e he => (is_validation_kind e (hval e he)).2.1)
        have ht0 : t.filter Event.is_cpu_switch_mm = [] :=
          filter_eq_nil_of _ _ (fun e he => (is_tima_debug_kind e (ht e he)).2.1)
        rw [if_pos ⟨rfl, hv, rfl, hc⟩, List.countP_eq_length_filter, hev, hcc,
          filter_switch_events _ _ _ _ _ _ _ _ hv0 ht0]
        split_ifs <;> rfl
    · have hc1 : c ∈ (switch_mm cfg env c prev M s).1.cpumask M := by
        rw [switch_mm_cpumask cfg env c prev M s hM]
        by_cases hv : env.cache_is_vivt = true
        · by_cases hp : prev = M
          · have hc : c ∈ s.cpumask M := by
              by_contra hc
              exact hcorner ⟨hv, hp, hc⟩
            subst hp
            simp [hc]
          · simp [hp, hv, Function.update_noteq (Ne.symm hp)]
        · simp [hv]
      rw [switch_mm_fast cfg env c M M _ hM hc1 rfl, if_neg (fun hh => hcorner hh.2)]
      constructor
      · intro e he
        simp only [List.mem_singleton] at he
        subst he; rfl
      · rfl

/-- C4 (failing input): on a VIVT uniprocessor, after `switch_mm(5, 5, tsk)` on CPU 0 from
the boot state (CPU 0 not in the mask of address space 5), the immediately following
`switch_mm(5, 5, tsk)` calls `cpu_switch_mm` again, although the address space has not
changed: the first call's VIVT cleanup has cleared the bit it had just set. -/
theorem switch_mm_vivt_self_switch_reloads :
    Event.cpu_switch_mm (env_vivt.pgd 5) 5 ∈
      (switch_mm cfg_up env_vivt 0 5 5 (switch_mm cfg_up env_vivt 0 5 5 boot_state).1).2 := by
  decide

/-! Witnesses at concrete inputs. -/

/-- Witness for C3: from the boot state, `switch_mm(5, 7, tsk)` on CPU 1 validates and
loads; the `switch_mm(7, 7, tsk)` that follows on CPU 1 is the fast path. -/
theorem switch_mm_activation_witness :
    (switch_mm cfg_smp env_vipt 1 5 7 boot_state).2.filter
        (fun e => e.is_check_context || e.is_cpu_switch_mm) =
      [Event.check_context 7, Event.cpu_switch_mm (env_vipt.pgd 7) 7] ∧
    switch_mm cfg_smp env_vipt 1 7 7 (switch_mm cfg_smp env_vipt 1 5 7 boot_state).1 =
      ((switch_mm cfg_smp env_vipt 1 5 7 boot_state).1, [Event.cpumask_test_and_set_cpu 1 7]) :=
  ⟨(switch_mm_activation cfg_smp env_vipt 1 5 7 boot_state rfl).2.2.1 (Or.inl (by decide)),
   (switch_mm_activation cfg_smp env_vipt 1 7 7 _ rfl).2.2.2 (by decide)⟩

/-- Witness for C5: the boot state, counter 256 and `context.id` 0. -/
theorem check_context_idempotent_witness :
    (0 ^^^ 256) >>> ASID_BITS = 1 ∧
    Event.new_context 5 ∈ (check_context cfg_smp env_vipt 5 boot_state).2 ∧
    (check_context cfg_smp env_vipt 5 boot_state).1.cpu_last_asid = 257 ∧
    ((check_context cfg_smp env_vipt 5 boot_state).1.context 5).id = 257 ∧
    (257 ^^^ 257) >>> ASID_BITS = 0 ∧
    ∀ e ∈ (check_context cfg_smp env_vipt 5 (check_context cfg_smp env_vipt 5 boot_state).1).2,
      e.is_new_context = false :=
  (check_context_idempotent cfg_smp env_vipt 5 boot_state).2.2.2 rfl rfl rfl

/-- Witness for C8: address space 7 resident on CPU 0 only, activated on CPU 1. -/
theorem switch_mm_migration_flush_witness :
    (switch_mm cfg_smp env_vipt 1 5 7 (cpumask_test_and_set_cpu 0 7 boot_state).2).2.filter
        (fun e => e.is_flush_icache_all || e.is_check_context || e.is_cpu_switch_mm) =
      [Event.flush_icache_all 1, Event.check_context 7,
        Event.cpu_switch_mm (env_vipt.pgd 7) 7] :=
  (switch_mm_migration_flush cfg_smp env_vipt 1 5 7 (cpumask_test_and_set_cpu 0 7 boot_state).2
    rfl rfl).2.1 ⟨by decide, by decide⟩

/-- Witness for C9: a VIVT uniprocessor leaving address space 5, resident on CPU 0. -/
theorem switch_mm_vivt_cleanup_witness :
    (switch_mm cfg_up env_vivt 0 5 7 (cpumask_test_and_set_cpu 0 5 boot_state).2).1.cpumask 5 =
        ((cpumask_test_and_set_cpu 0 5 boot_state).2.cpumask 5).erase 0 ∧
    (switch_mm cfg_up env_vivt 0 5 7 (cpumask_test_and_set_cpu 0 5 boot_state).2).2.filter
        (fun e => e.is_cpu_switch_mm || e.is_cpumask_clear_cpu) =
      [Event.cpu_switch_mm (env_vivt.pgd 7) 7, Event.cpumask_clear_cpu 0 5] :=
  (switch_mm_vivt_cleanup cfg_up env_vivt 0 5 7 (cpumask_test_and_set_cpu 0 5 boot_state).2
    rfl (by decide)).1 rfl

/-- Witness for C10: the global stamp moved to 3 while address space 5 still has 0. -/
theorem check_context_kvm_seq_iff_witness :
    (Event.check_kvm_seq 5 ∈
        (check_context_noasid cfg_up 5 (boot_state.set_kvm_seq init_mm 3)).2 ↔
      ((boot_state.set_kvm_seq init_mm 3).context 5).kvm_seq ≠
        ((boot_state.set_kvm_seq init_mm 3).context init_mm).kvm_seq) :=
  (check_context_kvm_seq_iff cfg_up env_vipt 5 (boot_state.set_kvm_seq init_mm 3)).2 rfl

/-! The remaining fields after the body of `switch_mm`. -/

theorem switch_mm_body_current_mm (cfg : Config) (env : Env) (c : Cpu) (prev next : MmId)
    (s : State) :
    (switch_mm_body cfg env c prev next s).1.current_mm =
      (set_current_mm cfg c next s).current_mm := by
  have h : (tima_debug cfg env next (cpu_switch_mm c (env.pgd next) next
      (check_context cfg env next (set_current_mm cfg c next s)).1).1).1.current_mm =
      (set_current_mm cfg c next s).current_mm := by
    rw [tima_debug_frame]
    show (check_context cfg env next (set_current_mm cfg c next s)).1.current_mm = _
    rw [check_context_frame]
  unfold switch_mm_body
  simp only
  split
  · exact h
  · exact h

theorem switch_mm_body_hw_loaded (cfg : Config) (env : Env) (c : Cpu) (prev next : MmId)
    (s : State) :
    (switch_mm_body cfg env c prev next s).1.hw_loaded =
      Function.update s.hw_loaded c (env.pgd next,
        ((check_context cfg env next (set_current_mm cfg c next s)).1.context next).id) := by
  have h : (tima_debug cfg env next (cpu_switch_mm c (env.pgd next) next
      (check_context cfg env next (set_current_mm cfg c next s)).1).1).1.hw_loaded =
      Function.update s.hw_loaded c (env.pgd next,
        ((check_context cfg env next (set_current_mm cfg c next s)).1.context next).id) := by
    rw [tima_debug_frame]
    show Function.update (check_context cfg env next (set_current_mm cfg c next s)).1.hw_loaded
      c _ = _
    rw [check_context_frame, set_current_mm_frame]
  unfold switch_mm_body
  simp only
  split
  · exact h
  · exact h

/-- The slot `per_cpu(current_mm, cpu)` of every CPU after `switch_mm`. -/
theorem switch_mm_current_mm (cfg : Config) (env : Env) (c : Cpu) (prev next : MmId)
    (s : State) :
    (switch_mm cfg env c prev next s).1.current_mm =
      if cfg.MMU = true ∧ cfg.SMP = true ∧ (c ∉ s.cpumask next ∨ prev ≠ next) then
        Function.update s.current_mm c next
      else s.current_mm := by
  cases hM : cfg.MMU
  · rw [switch_mm_nommu _ _ _ _ _ _ hM]
    simp
  · by_cases h : c ∉ s.cpumask next ∨ prev ≠ next
    · rw [switch_mm_slow cfg env c prev next s hM h]
      simp only [switch_mm_body_current_mm, h, and_true, true_and]
      unfold set_current_mm
      split <;> rfl
    · rw [if_neg (fun hh => h hh.2.2)]
      rw [not_or, not_not, not_not] at h
      rw [switch_mm_fast cfg env c prev next s hM h.1 h.2]

/-- The mask of every address space after `switch_mm`, in every configuration. -/
theorem switch_mm_cpumask_all (cfg : Config) (env : Env) (c : Cpu) (prev next : MmId)
    (s : State) (m : MmId) (c' : Cpu) (h : c' ≠ c ∨ (m ≠ next ∧ m ≠ prev)) :
    (c' ∈ (switch_mm cfg env c prev next s).1.cpumask m ↔ c' ∈ s.cpumask m) := by
  cases hM : cfg.MMU
  · rw [switch_mm_nommu _ _ _ _ _ _ hM]
  · rw [switch_mm_cpumask cfg env c prev next s hM]
    have hins : ∀ m', c' ∈ Function.update s.cpumask next (insert c (s.cpumask next)) m' ↔
        c' ∈ s.cpumask m' ∨ (c' = c ∧ m' = next) := by
      intro m'
      by_cases hm : m' = next
      · subst hm
        simp only [Function.update_same, Finset.mem_insert, and_true]
        exact or_comm
      · simp [Function.update_noteq hm, hm]
    split
    · by_cases hp : m = prev
      · subst hp
        simp only [Function.update_same, Finset.mem_erase, hins]
        rcases h with h | h
        · simp [h]
        · exact absurd rfl h.2
      · rw [Function.update_noteq hp, hins]
        rcases h with h | h
        · simp [h]
        · simp [h.1]
    · rw [hins]
      rcases h with h | h
      · simp [h]
      · simp [h.1]

/-- The context of every address space other than `next` after `switch_mm`. -/
theorem switch_mm_context_other (cfg : Config) (env : Env) (c : Cpu) (prev next : MmId)
    (s : State) (m : MmId) (h : m ≠ next) :
    (switch_mm cfg env c prev next s).1.context m = s.context m := by
  cases hM : cfg.MMU
  · rw [switch_mm_nommu _ _ _ _ _ _ hM]
  · by_cases hs : c ∉ s.cpumask next ∨ prev ≠ next
    · rw [(switch_mm_slow_context cfg env c prev next s hM hs).2, check_context_other _ _ _ _ _ h,
        (pre_check_frame cfg c next s).2]
    · rw [not_or, not_not, not_not] at hs
      rw [switch_mm_fast cfg env c prev next s hM hs.1 hs.2]

/-- C15: per-CPU tracking of the active address space under `CONFIG_SMP` (and
`CONFIG_MMU`). If `per_cpu(current_mm, c)` is `prev` when `switch_mm(prev, next, tsk)` is
entered on CPU `c`, it is `next` when the call returns; and the slot of every other CPU is
unchanged. -/
theorem switch_mm_tracks_current_mm (cfg : Config) (env : Env) (c : Cpu) (prev next : MmId)
    (s : State) (hM : cfg.MMU = true) (hS : cfg.SMP = true) :
    (s.current_mm c = prev → (switch_mm cfg env c prev next s).1.current_mm c = next) ∧
    (∀ c', c' ≠ c → (switch_mm cfg env c prev next s).1.current_mm c' = s.current_mm c') := by
  rw [switch_mm_current_mm]
  constructor
  · intro hcur
    by_cases h : c ∉ s.cpumask next ∨ prev ≠ next
    · rw [if_pos ⟨hM, hS, h⟩, Function.update_same]
    · rw [if_neg (fun hh => h hh.2.2), hcur]
      rw [not_or, not_not, not_not] at h
      exact h.2
  · intro c' hc'
    split
    · exact Function.update_noteq hc' _ _
    · rfl

/-- C16: frame of a switch. `switch_mm(prev, next, tsk)` run on CPU `c` leaves the
membership of every other CPU in every residency set unchanged, leaves the residency set
of every address space other than `next` and `prev` unchanged, and leaves the context id
and dynamic-mapping stamp of every address space other than `next` unchanged. -/
theorem switch_mm_frame (cfg : Config) (env : Env) (c : Cpu) (prev next : MmId) (s : State) :
    (∀ m c', c' ≠ c →
      (c' ∈ (switch_mm cfg env c prev next s).1.cpumask m ↔ c' ∈ s.cpumask m)) ∧
    (∀ m, m ≠ next → m ≠ prev → (switch_mm cfg env c prev next s).1.cpumask m = s.cpumask m) ∧
    (∀ m, m ≠ next →
      ((switch_mm cfg env c prev next s).1.context m).id = (s.context m).id ∧
      ((switch_mm cfg env c prev next s).1.context m).kvm_seq = (s.context m).kvm_seq) := by
  refine ⟨fun m c' hc' => switch_mm_cpumask_all cfg env c prev next s m c' (Or.inl hc'),
    fun m h1 h2 => ?_, fun m hm => ?_⟩
  · ext c'
    exact switch_mm_cpumask_all cfg env c prev next s m c' (Or.inr ⟨h1, h2⟩)
  · rw [switch_mm_context_other cfg env c prev next s m hm]
    exact ⟨rfl, rfl⟩

/-- C13: no failure return. In both build variants `init_new_context(tsk, mm)` evaluates
to 0 for every `tsk` and `mm`: with `CONFIG_CPU_HAS_ASID` after running
`__init_new_context(tsk, mm)`, without it as the constant `0` with the state untouched.
`check_context` and `switch_mm` are `void`: they yield a state and a list of calls, no
value a caller could test. -/
theorem init_new_context_returns_zero (cfg : Config)
    (__init_new_context : Nat → MmId → State → State) (tsk : Nat) (mm : MmId) (s : State) :
    (init_new_context cfg __init_new_context tsk mm s).1 = 0 ∧
    (init_new_context cfg __init_new_context tsk mm s).2 =
      if cfg.CPU_HAS_ASID = true then __init_new_context tsk mm s else s := by
  unfold init_new_context
  split <;> exact ⟨rfl, rfl⟩

/-! The dynamic-mapping stamp through `check_context` and `switch_mm`. -/

theorem check_kvm_kvm_seq (mm m : MmId) (s : State) :
    ((check_kvm mm s).1.context m).kvm_seq =
      if m = mm then (s.context init_mm).kvm_seq else (s.context m).kvm_seq := by
  unfold check_kvm __check_kvm_seq State.set_kvm_seq
  by_cases hm : m = mm
  · subst hm
    split
    · simp
    · rename_i h
      simp only [if_true]
      exact not_not.1 h
  · split
    · simp [Function.update_noteq hm, hm]
    · simp [hm]

theorem stale_branch_kvm_seq (env : Env) (mm m : MmId) (s : State) :
    (((if asid_stale (s.context mm).id s.cpu_last_asid = true then __new_context env mm s
      else (s, [])) : State × List Event).1.context m).kvm_seq = (s.context m).kvm_seq := by
  split
  · exact new_context_kvm_seq env mm m s
  · rfl

/-- The stamp of every address space after `check_context`. -/
theorem check_context_kvm_seq (cfg : Config) (env : Env) (mm m : MmId) (s : State) :
    ((check_context cfg env mm s).1.context m).kvm_seq =
      if (cfg.CPU_HAS_ASID = true ∨ cfg.MMU = true) ∧ m = mm then (s.context init_mm).kvm_seq
      else (s.context m).kvm_seq := by
  unfold check_context check_context_asid check_context_noasid
  cases hA : cfg.CPU_HAS_ASID
  · cases hM : cfg.MMU
    · simp
    · simp only [Bool.false_eq_true, if_false, if_true, false_or, true_and, check_kvm_kvm_seq]
  · simp only [if_true, true_or, true_and, check_kvm_kvm_seq, stale_branch_kvm_seq]

/-- The `__check_kvm_seq` calls of `check_context`. -/
theorem check_context_kvm_filter (cfg : Config) (env : Env) (mm : MmId) (s : State)
    (h : cfg.CPU_HAS_ASID = true ∨ cfg.MMU = true) :
    (check_context cfg env mm s).2.filter Event.is_check_kvm_seq =
      if (s.context mm).kvm_seq ≠ (s.context init_mm).kvm_seq then [Event.check_kvm_seq mm]
      else [] := by
  unfold check_context check_context_asid check_context_noasid
  cases hA : cfg.CPU_HAS_ASID
  · have hM : cfg.MMU = true := by
      rcases h with h | h
      · rw [hA] at h; cases h
      · exact h
    simp only [Bool.false_eq_true, if_false, hM, if_true, check_kvm_events]
    split <;> rfl
  · simp only [if_true, check_kvm_events]
    have hn : ∀ r : State × List Event,
        r = (if asid_stale (s.context mm).id s.cpu_last_asid = true then __new_context env mm s
          else (s, [])) →
        r.2.filter Event.is_check_kvm_seq = [] ∧
        (r.1.context mm).kvm_seq = (s.context mm).kvm_seq ∧
        (r.1.context init_mm).kvm_seq = (s.context init_mm).kvm_seq := by
      intro r hr
      split at hr
      · subst hr
        refine ⟨filter_eq_nil_of _ _ (fun e he => ?_), new_context_kvm_seq _ _ _ _,
          new_context_kvm_seq _ _ _ _⟩
        rcases new_context_events env mm s e he with h' | h' | h' <;> subst h' <;> rfl
      · subst hr
        exact ⟨rfl, rfl, rfl⟩
    obtain ⟨n1, n2, n3⟩ := hn _ rfl
    have e0 : List.filter Event.is_check_kvm_seq [Event.check_context mm] = [] := rfl
    rw [← List.singleton_append]
    simp only [List.filter_append, e0, n1, n2, n3, List.nil_append]
    split <;> rfl

theorem is_tima_debug_not_check_kvm_seq (e : Event) (h : e.is_tima_debug = true) :
    e.is_check_kvm_seq = false := by
  cases e <;> simp_all [Event.is_tima_debug, Event.is_check_kvm_seq]

/-- The `__check_kvm_seq` calls of `switch_mm` under `CONFIG_MMU`. -/
theorem switch_mm_kvm_filter (cfg : Config) (env : Env) (c : Cpu) (prev next : MmId)
    (s : State) (hM : cfg.MMU = true) :
    (switch_mm cfg env c prev next s).2.filter Event.is_check_kvm_seq =
      if (c ∉ s.cpumask next ∨ prev ≠ next) ∧
          (s.context next).kvm_seq ≠ (s.context init_mm).kvm_seq then
        [Event.check_kvm_seq next]
      else [] := by
  by_cases h : c ∉ s.cpumask next ∨ prev ≠ next
  · obtain ⟨t, ht, hev⟩ := switch_mm_slow_check_events cfg env c prev next s hM h
    have ht0 : t.filter Event.is_check_kvm_seq = [] :=
      filter_eq_nil_of _ _ (fun e he => is_tima_debug_not_check_kvm_seq e (ht e he))
    have hcc := check_context_kvm_filter cfg env next
      (set_current_mm cfg c next (cpumask_test_and_set_cpu c next s).2) (Or.inr hM)
    rw [(pre_check_frame cfg c next s).2] at hcc
    rw [hev]
    simp only [List.filter_append, List.filter_cons, hcc, ht0, h, true_and]
    split_ifs <;> simp_all [Event.is_check_kvm_seq]
  · rw [if_neg (fun hh => h hh.1)]
    rw [not_or, not_not, not_not] at h
    rw [switch_mm_fast cfg env c prev next s hM h.1 h.2]
    rfl

/-- The stamp of every address space after `switch_mm`. -/
theorem switch_mm_kvm_seq (cfg : Config) (env : Env) (c : Cpu) (prev next : MmId)
    (s : State) (m : MmId) :
    ((switch_mm cfg env c prev next s).1.context m).kvm_seq =
      if cfg.MMU = true ∧ (c ∉ s.cpumask next ∨ prev ≠ next) ∧ m = next then
        (s.context init_mm).kvm_seq
      else (s.context m).kvm_seq := by
  cases hM : cfg.MMU
  · rw [switch_mm_nommu _ _ _ _ _ _ hM]
    simp
  · by_cases h : c ∉ s.cpumask next ∨ prev ≠ next
    · rw [(switch_mm_slow_context cfg env c prev next s hM h).2, check_context_kvm_seq,
        (pre_check_frame cfg c next s).2]
      simp [hM, h]
    · rw [if_neg (fun hh => h hh.2.1)]
      rw [not_or, not_not, not_not] at h
      rw [switch_mm_fast cfg env c prev next s hM h.1 h.2]

/-- A stamp equal to the global one stays so across any `switch_mm` call, and the global
stamp itself is never written. -/
theorem switch_mm_keeps_fresh (cfg : Config) (env : Env) (c : Cpu) (prev next : MmId)
    (s : State) (M : MmId) (v : Nat)
    (h : (s.context M).kvm_seq = v ∧ (s.context init_mm).kvm_seq = v) :
    ((switch_mm cfg env c prev next s).1.context M).kvm_seq = v ∧
    ((switch_mm cfg env c prev next s).1.context init_mm).kvm_seq = v := by
  rw [switch_mm_kvm_seq, switch_mm_kvm_seq]
  constructor
  · split
    · exact h.2
    · exact h.1
  · split
    · exact h.2
    · exact h.2

theorem switch_mm_calls_keep_fresh (cfg : Config) (calls : List Call) (M : MmId) (v : Nat) :
    ∀ s : State, (s.context M).kvm_seq = v ∧ (s.context init_mm).kvm_seq = v →
      ((switch_mm_calls cfg calls s).context M).kvm_seq = v ∧
      ((switch_mm_calls cfg calls s).context init_mm).kvm_seq = v := by
  induction calls with
  | nil => intro s h; exact h
  | cons k ks ih =>
    intro s h
    exact ih _ (switch_mm_keeps_fresh cfg k.env k.cpu k.prev k.next s M v h)

/-- C11 (amended): under `CONFIG_MMU`, in a state where `init_mm.context.kvm_seq` differs
from the stamp of `M`, a call `switch_mm(prev, M, tsk)` on CPU `c` that takes the slow path
(`c` not in `mm_cpumask(M)` at entry, or `prev != M`) makes exactly one `__check_kvm_seq(M)`
call and leaves the stamp of `M` equal to the global value, which it does not change; after
that, whatever `switch_mm` calls come in between, no activation of `M` on any CPU with any
`prev` makes a `__check_kvm_seq` call. A call that takes the fast path (`c` in
`mm_cpumask(M)` and `prev == M`) makes no `__check_kvm_seq` call and leaves the stamp of
`M` stale. -/
theorem switch_mm_refreshes_kvm_seq (cfg : Config) (env : Env) (c : Cpu) (prev M : MmId)
    (s : State) (hM : cfg.MMU = true)
    (hstale : (s.context M).kvm_seq ≠ (s.context init_mm).kvm_seq) :
    ((c ∉ s.cpumask M ∨ prev ≠ M) →
      (switch_mm cfg env c prev M s).2.filter Event.is_check_kvm_seq =
        [Event.check_kvm_seq M] ∧
      ((switch_mm cfg env c prev M s).1.context M).kvm_seq = (s.context init_mm).kvm_seq ∧
      ((switch_mm cfg env c prev M s).1.context init_mm).kvm_seq =
        (s.context init_mm).kvm_seq ∧
      ∀ (calls : List Call) (env' : Env) (c' : Cpu) (prev' : MmId),
        (switch_mm cfg env' c' prev' M
          (switch_mm_calls cfg calls (switch_mm cfg env c prev M s).1)).2.filter
            Event.is_check_kvm_seq = []) ∧
    (¬ (c ∉ s.cpumask M ∨ prev ≠ M) →
      (switch_mm cfg env c prev M s).2.filter Event.is_check_kvm_seq = [] ∧
      ((switch_mm cfg env c prev M s).1.context M).kvm_seq ≠
        ((switch_mm cfg env c prev M s).1.context init_mm).kvm_seq) := by
  constructor
  · intro h
    have hfresh := switch_mm_keeps_fresh cfg env c prev M s
    have h1 : ((switch_mm cfg env c prev M s).1.context M).kvm_seq =
        (s.context init_mm).kvm_seq := by
      rw [switch_mm_kvm_seq, if_pos ⟨hM, h, rfl⟩]
    have h2 : ((switch_mm cfg env c prev M s).1.context init_mm).kvm_seq =
        (s.context init_mm).kvm_seq := by
      rw [switch_mm_kvm_seq]
      split <;> rfl
    refine ⟨?_, h1, h2, fun calls env' c' prev' => ?_⟩
    · rw [switch_mm_kvm_filter cfg env c prev M s hM, if_pos ⟨h, hstale⟩]
    · obtain ⟨k1, k2⟩ := switch_mm_calls_keep_fresh cfg calls M _ _ ⟨h1, h2⟩
      rw [switch_mm_kvm_filter cfg env' c' prev' M _ hM, if_neg]
      rintro ⟨-, hne⟩
      exact hne (k1.trans k2.symm)
  · intro h
    constructor
    · rw [switch_mm_kvm_filter cfg env c prev M s hM, if_neg (fun hh => h hh.1)]
    · rw [switch_mm_kvm_seq, switch_mm_kvm_seq, if_neg (fun hh => h hh.2.1),
        if_neg (fun hh => h hh.2.1)]
      exact hstale

/-- C11 (counterexample): the global stamp is 3, address space 5 has stamp 0 and is
resident on CPU 0; `switch_mm(5, 5, tsk)` on CPU 0 makes no `__check_kvm_seq` call and the
stamps still differ afterwards. -/
theorem switch_mm_fast_path_skips_kvm_seq :
    ((cpumask_test_and_set_cpu 0 5 (boot_state.set_kvm_seq init_mm 3)).2.context 5).kvm_seq ≠
      ((cpumask_test_and_set_cpu 0 5 (boot_state.set_kvm_seq init_mm 3)).2.context
        init_mm).kvm_seq ∧
    (switch_mm cfg_smp env_vipt 0 5 5
      (cpumask_test_and_set_cpu 0 5 (boot_state.set_kvm_seq init_mm 3)).2).2.filter
        Event.is_check_kvm_seq = [] ∧
    ((switch_mm cfg_smp env_vipt 0 5 5
      (cpumask_test_and_set_cpu 0 5 (boot_state.set_kvm_seq init_mm 3)).2).1.context 5).kvm_seq ≠
      ((switch_mm cfg_smp env_vipt 0 5 5
        (cpumask_test_and_set_cpu 0 5 (boot_state.set_kvm_seq init_mm 3)).2).1.context
          init_mm).kvm_seq := by
  decide

/-- Witness for C11: the global stamp is 3 and address space 5, not resident anywhere, has
stamp 0; its activation on CPU 0 synchronises once and sets the stamp to 3. -/
theorem switch_mm_refreshes_kvm_seq_witness :
    (switch_mm cfg_smp env_vipt 0 7 5 (boot_state.set_kvm_seq init_mm 3)).2.filter
        Event.is_check_kvm_seq = [Event.check_kvm_seq 5] ∧
    ((switch_mm cfg_smp env_vipt 0 7 5 (boot_state.set_kvm_seq init_mm 3)).1.context 5).kvm_seq =
      3 :=
  ⟨((switch_mm_refreshes_kvm_seq cfg_smp env_vipt 0 7 5 (boot_state.set_kvm_seq init_mm 3) rfl
      (by decide)).1 (Or.inr (by decide))).1,
   ((switch_mm_refreshes_kvm_seq cfg_smp env_vipt 0 7 5 (boot_state.set_kvm_seq init_mm 3) rfl
      (by decide)).1 (Or.inr (by decide))).2.1⟩

/-! The debug hook: what depends on it and what does not. -/

/-- The calls of the body of `switch_mm`, with those of the debug block kept as they are. -/
theorem switch_mm_body_events_eq (cfg : Config) (env : Env) (c : Cpu) (prev next : MmId)
    (s : State) :
    (switch_mm_body cfg env c prev next s).2 =
      (check_context cfg env next (set_current_mm cfg c next s)).2 ++
        Event.cpu_switch_mm (env.pgd next) next ::
          (tima_debug cfg env next (cpu_switch_mm c (env.pgd next) next
            (check_context cfg env next (set_current_mm cfg c next s)).1).1).2 ++
        (if env.cache_is_vivt = true then [Event.cpumask_clear_cpu c prev] else []) := by
  unfold switch_mm_body
  simp only
  unfold cpu_switch_mm
  split <;> simp

theorem tima_l1_step_calls (env : Env) (f : Nat → Nat → Nat → Int) (next : MmId) (i : Nat) :
    (tima_l1_step { env with tima_debug_page_protection := f } next i).filter
        (fun e => !e.is_tima_debug_signal_failure) =
      (tima_l1_step env next i).filter (fun e => !e.is_tima_debug_signal_failure) := by
  unfold tima_l1_step
  simp only
  split <;> split <;> rfl

theorem tima_l1_calls (env : Env) (f : Nat → Nat → Nat → Int) (next : MmId) (l : List Nat) :
    (l.flatMap (tima_l1_step { env with tima_debug_page_protection := f } next)).filter
        (fun e => !e.is_tima_debug_signal_failure) =
      (l.flatMap (tima_l1_step env next)).filter (fun e => !e.is_tima_debug_signal_failure) := by
  induction l with
  | nil => rfl
  | cons i l ih =>
    simp only [List.flatMap_cons, List.filter_append, ih, tima_l1_step_calls]

theorem tima_l2_step_calls (env : Env) (f : Nat → Nat → Nat → Int) (next : MmId)
    (acc acc' : State × List Event) (i : Nat)
    (h : acc'.2.filter (fun e => !e.is_tima_debug_signal_failure) =
      acc.2.filter (fun e => !e.is_tima_debug_signal_failure)) :
    (tima_l2_step { env with tima_debug_page_protection := f } next acc' i).2.filter
        (fun e => !e.is_tima_debug_signal_failure) =
      (tima_l2_step env next acc i).2.filter (fun e => !e.is_tima_debug_signal_failure) := by
  have hcall : ∀ va a b, (fun e : Event => !e.is_tima_debug_signal_failure)
      (Event.tima_debug_page_protection va a b) = true := fun _ _ _ => rfl
  have hsf : ∀ code arg, (fun e : Event => !e.is_tima_debug_signal_failure)
      (Event.tima_debug_signal_failure code arg) = false := fun _ _ => rfl
  generalize (fun e : Event => !e.is_tima_debug_signal_failure) = p at h hcall hsf ⊢
  unfold tima_l2_step
  simp only
  split
  · exact h
  · split
    · exact h
    · split <;> split <;> (try split) <;> (try split) <;>
        simp [List.filter_append, List.filter_cons, h, hcall, hsf]

theorem tima_l2_fold_calls (env : Env) (f : Nat → Nat → Nat → Int) (next : MmId)
    (l : List Nat) :
    ∀ acc acc' : State × List Event,
      acc'.2.filter (fun e => !e.is_tima_debug_signal_failure) =
        acc.2.filter (fun e => !e.is_tima_debug_signal_failure) →
      (l.foldl (tima_l2_step { env with tima_debug_page_protection := f } next) acc').2.filter
          (fun e => !e.is_tima_debug_signal_failure) =
        (l.foldl (tima_l2_step env next) acc).2.filter
          (fun e => !e.is_tima_debug_signal_failure) := by
  induction l with
  | nil => intro acc acc' h; exact h
  | cons i l ih =>
    intro acc acc' h
    rw [List.foldl_cons, List.foldl_cons]
    exact ih _ _ (tima_l2_step_calls env f next acc acc' i h)

/-- The calls of the debug block other than `tima_debug_signal_failure` do not depend on
what `tima_debug_page_protection` returns. -/
theorem tima_debug_calls (cfg : Config) (env : Env) (f : Nat → Nat → Nat → Int) (next : MmId)
    (s : State) :
    (tima_debug cfg { env with tima_debug_page_protection := f } next s).2.filter
        (fun e => !e.is_tima_debug_signal_failure) =
      (tima_debug cfg env next s).2.filter (fun e => !e.is_tima_debug_signal_failure) := by
  have h1 := tima_l1_calls env f next (List.range 4)
  have h2 := tima_l2_fold_calls env f next (List.range 0x1000) (s, []) (s, []) rfl
  unfold tima_debug
  cases cfg.TIMA_RKP_DEBUG
  · simp only [Bool.false_eq_true, if_false]
  · cases cfg.TIMA_RKP_L1_TABLES <;> cases cfg.TIMA_RKP_L2_TABLES <;>
      simp only [Bool.false_eq_true, if_false, if_true, List.filter_append, h1, h2]

theorem tima_debug_filter_nil (cfg : Config) (env : Env) (next : MmId) (s : State) :
    (tima_debug cfg env next s).2.filter (fun e => !e.is_tima_debug) = [] :=
  filter_eq_nil_of _ _ (fun e he => by rw [tima_debug_events cfg env next s e he]; rfl)

/-- The state and the calls of the slow path, with the debug block kept as it is. -/
theorem switch_mm_slow_parts (cfg : Config) (env : Env) (c : Cpu) (prev next : MmId)
    (s : State) (hM : cfg.MMU = true) (h : c ∉ s.cpumask next ∨ prev ≠ next) :
    (switch_mm cfg env c prev next s).1.cpu_last_asid =
      (check_context cfg env next
        (set_current_mm cfg c next (cpumask_test_and_set_cpu c next s).2)).1.cpu_last_asid ∧
    (switch_mm cfg env c prev next s).1.context =
      (check_context cfg env next
        (set_current_mm cfg c next (cpumask_test_and_set_cpu c next s).2)).1.context ∧
    (switch_mm cfg env c prev next s).1.cpumask =
      (if env.cache_is_vivt = true then
        Function.update (cpumask_test_and_set_cpu c next s).2.cpumask prev
          (((cpumask_test_and_set_cpu c next s).2.cpumask prev).erase c)
      else (cpumask_test_and_set_cpu c next s).2.cpumask) ∧
    (switch_mm cfg env c prev next s).1.current_mm =
      (set_current_mm cfg c next (cpumask_test_and_set_cpu c next s).2).current_mm ∧
    (switch_mm cfg env c prev next s).1.hw_loaded =
      Function.update s.hw_loaded c (env.pgd next,
        ((check_context cfg env next
          (set_current_mm cfg c next (cpumask_test_and_set_cpu c next s).2)).1.context next).id) ∧
    (switch_mm cfg env c prev next s).2 =
      migration_flush cfg c next s ++ Event.cpumask_test_and_set_cpu c next ::
        ((check_context cfg env next
          (set_current_mm cfg c next (cpumask_test_and_set_cpu c next s).2)).2 ++
        Event.cpu_switch_mm (env.pgd next) next ::
          (tima_debug cfg env next (cpu_switch_mm c (env.pgd next) next
            (check_context cfg env next
              (set_current_mm cfg c next (cpumask_test_and_set_cpu c next s).2)).1).1).2 ++
        (if env.cache_is_vivt = true then [Event.cpumask_clear_cpu c prev] else [])) := by
  rw [switch_mm_slow cfg env c prev next s hM h]
  refine ⟨switch_mm_body_cpu_last_asid _ _ _ _ _ _, switch_mm_body_context _ _ _ _ _ _,
    switch_mm_body_cpumask _ _ _ _ _ _, switch_mm_body_current_mm _ _ _ _ _ _,
    switch_mm_body_hw_loaded _ _ _ _ _ _, ?_⟩
  rw [switch_mm_body_events_eq]

/-- C12: the debug verification hook never alters activation. Two runs of `switch_mm`
from the same state, on the same CPU and with the same arguments, that differ in what
`tima_debug_page_protection` returns and in whether `CONFIG_TIMA_RKP_DEBUG` is enabled,
end with the same `cpu_last_asid`, contexts (id and stamp), residency sets, `current_mm`
slots and loaded hardware context, and make the same calls once the calls of the debug
hook are left out. If `CONFIG_TIMA_RKP_DEBUG` is the same in both runs, the calls differ
in nothing but `tima_debug_signal_failure`; the only state left free is
`tima_debug_infra_cnt`. -/
theorem debug_hook_noninterference (cfg : Config) (env : Env) (c : Cpu) (prev next : MmId)
    (s : State) (d : Bool) (f : Nat → Nat → Nat → Int) :
    (switch_mm { cfg with TIMA_RKP_DEBUG := d } { env with tima_debug_page_protection := f }
        c prev next s).1.cpu_last_asid = (switch_mm cfg env c prev next s).1.cpu_last_asid ∧
    (switch_mm { cfg with TIMA_RKP_DEBUG := d } { env with tima_debug_page_protection := f }
        c prev next s).1.context = (switch_mm cfg env c prev next s).1.context ∧
    (switch_mm { cfg with TIMA_RKP_DEBUG := d } { env with tima_debug_page_protection := f }
        c prev next s).1.cpumask = (switch_mm cfg env c prev next s).1.cpumask ∧
    (switch_mm { cfg with TIMA_RKP_DEBUG := d } { env with tima_debug_page_protection := f }
        c prev next s).1.current_mm = (switch_mm cfg env c prev next s).1.current_mm ∧
    (switch_mm { cfg with TIMA_RKP_DEBUG := d } { env with tima_debug_page_protection := f }
        c prev next s).1.hw_loaded = (switch_mm cfg env c prev next s).1.hw_loaded ∧
    (switch_mm { cfg with TIMA_RKP_DEBUG := d } { env with tima_debug_page_protection := f }
        c prev next s).2.filter (fun e => !e.is_tima_debug) =
      (switch_mm cfg env c prev next s).2.filter (fun e => !e.is_tima_debug) ∧
    (d = cfg.TIMA_RKP_DEBUG →
      (switch_mm { cfg with TIMA_RKP_DEBUG := d } { env with tima_debug_page_protection := f }
          c prev next s).2.filter (fun e => !e.is_tima_debug_signal_failure) =
        (switch_mm cfg env c prev next s).2.filter
          (fun e => !e.is_tima_debug_signal_failure)) := by
  rcases Bool.eq_false_or_eq_true cfg.MMU with hM | hM
  swap
  · rw [switch_mm_nommu cfg env c prev next s hM,
      switch_mm_nommu { cfg with TIMA_RKP_DEBUG := d } _ c prev next s hM]
    exact ⟨rfl, rfl, rfl, rfl, rfl, rfl, fun _ => rfl⟩
  · by_cases h : c ∉ s.cpumask next ∨ prev ≠ next
    · obtain ⟨a1, a2, a3, a4, a5, a6⟩ := switch_mm_slow_parts cfg env c prev next s hM h
      obtain ⟨b1, b2, b3, b4, b5, b6⟩ := switch_mm_slow_parts { cfg with TIMA_RKP_DEBUG := d }
        { env with tima_debug_page_protection := f } c prev next s hM h
      refine ⟨b1.trans a1.symm, b2.trans a2.symm, b3.trans a3.symm, b4.trans a4.symm,
        b5.trans a5.symm, ?_, fun hd => ?_⟩
      · rw [a6, b6]
        simp only [List.filter_append, List.filter_cons, tima_debug_filter_nil]
        rfl
      · subst hd
        rw [a6, b6]
        simp only [List.filter_append, List.filter_cons]
        have := tima_debug_calls cfg env f next (cpu_switch_mm c (env.pgd next) next
            (check_context cfg env next
              (set_current_mm cfg c next (cpumask_test_and_set_cpu c next s).2)).1).1
        rw [← this]
        rfl
    · rw [not_or, not_not, not_not] at h
      rw [switch_mm_fast cfg env c prev next s hM h.1 h.2,
        switch_mm_fast { cfg with TIMA_RKP_DEBUG := d } _ c prev next s hM h.1 h.2]
      exact ⟨rfl, rfl, rfl, rfl, rfl, rfl, fun _ => rfl⟩

/-- Witness for C12: with the hook on for the first-level tables, a hook that reports every
page unprotected against one that reports every page protected. -/
theorem debug_hook_noninterference_witness :
    (switch_mm { cfg_debug with TIMA_RKP_DEBUG := true }
        { env_vipt with tima_debug_page_protection := fun _ _ _ => 0 }
        1 5 7 boot_state).2.filter (fun e => !e.is_tima_debug_signal_failure) =
      (switch_mm cfg_debug env_vipt 1 5 7 boot_state).2.filter
        (fun e => !e.is_tima_debug_signal_failure) :=
  (debug_hook_noninterference cfg_debug env_vipt 1 5 7 boot_state true
    (fun _ _ _ => 0)).2.2.2.2.2.2 rfl

/-- C14: the TLB is never loaded with an unvalidated context. With `CONFIG_CPU_HAS_ASID`
and the helpers modelled as in the spec, whenever `switch_mm` calls `cpu_switch_mm(p, m)`
the arguments are `next->pgd` and `next`, and in the state in which the call is made
(`switch_mm_load_state`) the generation bits of `next->context.id` are those of
`cpu_last_asid`, `(next->context.id ^ cpu_last_asid) >> 8 = 0`, and
`next->context.kvm_seq` equals `init_mm.context.kvm_seq`. The context id loaded into the
CPU is that validated id, and the contexts and `cpu_last_asid` at return are those of the
state of the call. -/
theorem tlb_load_validated (cfg : Config) (env : Env) (c : Cpu) (prev next : MmId) (s : State)
    (hA : cfg.CPU_HAS_ASID = true) (p : Nat) (m : MmId)
    (hcall : Event.cpu_switch_mm p m ∈ (switch_mm cfg env c prev next s).2) :
    p = env.pgd next ∧ m = next ∧
    (((switch_mm_load_state cfg env c next s).context next).id ^^^
      (switch_mm_load_state cfg env c next s).cpu_last_asid) >>> ASID_BITS = 0 ∧
    ((switch_mm_load_state cfg env c next s).context next).kvm_seq =
      ((switch_mm_load_state cfg env c next s).context init_mm).kvm_seq ∧
    (switch_mm cfg env c prev next s).1.hw_loaded c =
      (env.pgd next, ((switch_mm_load_state cfg env c next s).context next).id) ∧
    (switch_mm cfg env c prev next s).1.context = (switch_mm_load_state cfg env c next s).context ∧
    (switch_mm cfg env c prev next s).1.cpu_last_asid =
      (switch_mm_load_state cfg env c next s).cpu_last_asid := by
  have hM : cfg.MMU = true := by
    rcases Bool.eq_false_or_eq_true cfg.MMU with hM | hM
    · exact hM
    · rw [switch_mm_nommu cfg env c prev next s hM] at hcall
      simp at hcall
  have h : c ∉ s.cpumask next ∨ prev ≠ next := by
    by_contra h
    rw [not_or, not_not, not_not] at h
    rw [switch_mm_fast cfg env c prev next s hM h.1 h.2] at hcall
    simp at hcall
  obtain ⟨v, t, hv, ht, hev⟩ := switch_mm_slow_events cfg env c prev next s hM h
  have hpm : p = env.pgd next ∧ m = next := by
    rw [hev] at hcall
    simp only [List.mem_append, List.mem_cons] at hcall
    rcases hcall with ((he | he | he | he) | he | he) | he
    · split at he <;> simp at he
    · cases he
    · cases he
    · have := (is_validation_kind _ (hv _ he)).2.1
      simp [Event.is_cpu_switch_mm] at this
    · injection he with h1 h2
      exact ⟨h1, h2⟩
    · have := (is_tima_debug_kind _ (ht _ he)).2.1
      simp [Event.is_cpu_switch_mm] at this
    · split at he <;> simp at he
  obtain ⟨a1, a2, -, -, a5, -⟩ := switch_mm_slow_parts cfg env c prev next s hM h
  obtain ⟨p1, p2⟩ := check_context_post cfg env next
    (set_current_mm cfg c next (cpumask_test_and_set_cpu c next s).2)
  refine ⟨hpm.1, hpm.2, ?_, p2 (Or.inl hA), ?_, a2, a1⟩
  · have := p1 hA
    unfold asid_stale at this
    simpa using this
  · rw [a5, Function.update_same]
    rfl

/-- Witness for C14: the first activation of address space 7 from the boot state loads
context id 257, of generation 1 like the counter. -/
theorem tlb_load_validated_witness :
    (((switch_mm_load_state cfg_smp env_vipt 1 7 boot_state).context 7).id ^^^
      (switch_mm_load_state cfg_smp env_vipt 1 7 boot_state).cpu_last_asid) >>> ASID_BITS = 0 ∧
    (switch_mm cfg_smp env_vipt 1 5 7 boot_state).1.hw_loaded 1 = (env_vipt.pgd 7, 257) :=
  ⟨(tlb_load_validated cfg_smp env_vipt 1 5 7 boot_state rfl (env_vipt.pgd 7) 7
      (by decide)).2.2.1,
   (tlb_load_validated cfg_smp env_vipt 1 5 7 boot_state rfl (env_vipt.pgd 7) 7
      (by decide)).2.2.2.2.1⟩

/-- Witness for C15: CPU 1 runs `init_mm` at boot and switches to address space 7. -/
theorem switch_mm_tracks_current_mm_witness :
    (switch_mm cfg_smp env_vipt 1 init_mm 7 boot_state).1.current_mm 1 = 7 :=
  (switch_mm_tracks_current_mm cfg_smp env_vipt 1 init_mm 7 boot_state rfl rfl).1 rfl

/-- Witness for C16: a switch from address space 5 to 7 on CPU 1 leaves the residency set
of address space 9 and the context id of address space 5 alone. -/
theorem switch_mm_frame_witness :
    (switch_mm cfg_smp env_vipt 1 5 7 boot_state).1.cpumask 9 = boot_state.cpumask 9 ∧
    ((switch_mm cfg_smp env_vipt 1 5 7 boot_state).1.context 5).id =
      (boot_state.context 5).id :=
  ⟨(switch_mm_frame cfg_smp env_vipt 1 5 7 boot_state).2.1 9 (by decide) (by decide),
   ((switch_mm_frame cfg_smp env_vipt 1 5 7 boot_state).2.2 5 (by decide)).1⟩

/-! The same self-switch on a cache that is not VIVT. -/

/-- Without a VIVT cache, `switch_mm(5, 5, tsk)` on CPU 0 from the boot state records CPU 0
in `mm_cpumask` of address space 5. -/
theorem switch_mm_self_switch_recorded_without_vivt :
    (switch_mm cfg_up env_vipt 0 5 5 boot_state).1.cpumask 5 =
      insert 0 (boot_state.cpumask 5) := by
  decide

/-- Without a VIVT cache, the `switch_mm(5, 5, tsk)` that follows `switch_mm(5, 5, tsk)` on
CPU 0 from the boot state is the fast path: its only call is `cpumask_test_and_set_cpu`. -/
theorem switch_mm_self_switch_repeat_without_vivt :
    (switch_mm cfg_up env_vipt 0 5 5 (switch_mm cfg_up env_vipt 0 5 5 boot_state).1).2 =
      [Event.cpumask_test_and_set_cpu 0 5] := by
  decide

end MmuContext
